import Mathlib

/-!
Verification of the pandemic core of the `abstreet` fork: a shallow
embedding, in Lean 4, of the code in `sim/src/grid/mod.rs` and
`sim/src/pandemic/{mod.rs, pandemic.rs}`.

Modelling conventions:
* `f64` arithmetic is idealized as exact rational arithmetic (`ℚ`), with the
  single non-finite value `+∞` (used by the code for the `Sane` event time)
  modelled by the dedicated type `AnyTime`.
* The deterministic PRNG (`XorShiftRng`) is modelled as an oracle: a stream
  of uniform draws `u` (so `rng.gen_bool(p)` returns `u < p`, matching the
  Bernoulli(p) semantics of `rand`) and a stream of distribution draws `z`
  (so `Normal(mu, sigma).sample` returns `mu + sigma * z` and
  `Exp(lambda).sample` returns `z / lambda`).
* A Rust `panic!` / failed `assert!` / `unwrap()` on `None` /
  `unreachable!()` is modelled by returning `none` from an `Option`-valued
  function.
-/

/-- Absolute times as used by `AnyTime` in `sim/src/pandemic/mod.rs`:
either a finite number of seconds or `+∞` (`std::f64::INFINITY`). -/
inductive AnyTime where
  | fin : ℚ → AnyTime
  | inf : AnyTime
  deriving DecidableEq, Repr

/-- Source `AnyTime::is_finite`. -/
def AnyTime.isFinite : AnyTime → Bool
  | AnyTime.fin _ => true
  | AnyTime.inf => false

/-! ## Grid (`sim/src/grid/mod.rs`) -/

/-- Row-major 2-D scalar field, mirroring `struct Grid`. -/
structure Grid where
  data : List ℚ
  width : ℕ
  height : ℕ
  deriving DecidableEq, Repr

/-- Source `Grid::idx`: row-major flat index. -/
def Grid.idx (g : Grid) (x y : ℕ) : ℕ :=
  y * g.width + x

/-- The unchecked read `self[(x, y)]` through `Index`, as used on indices the
loop guarantees to be in range (out-of-range flat indices read the default). -/
def Grid.getU (g : Grid) (x y : ℕ) : ℚ :=
  g.data.getD (g.idx x y) 0

/-- The unchecked read `self[(x, y)]` where an out-of-range flat index is a
hard fault (`data[idx]` panics): `none` models the panic. -/
def Grid.read (g : Grid) (x y : ℕ) : Option ℚ :=
  g.data.get? (g.idx x y)

/-- The unchecked write `self[(x, y)] = v` through `IndexMut`. -/
def Grid.setU (g : Grid) (x y : ℕ) (v : ℚ) : Grid :=
  ⟨g.data.set (g.idx x y) v, g.width, g.height⟩

/-- Source `Grid::new`. -/
def Grid.new (width height : ℕ) (default : ℚ) : Grid :=
  ⟨List.replicate (width * height) default, width, height⟩

/-- Source `Grid::zero`. -/
def Grid.zero (width height : ℕ) : Grid :=
  Grid.new width height 0

/-- Source `Grid::get`: bounds-checked read. -/
def Grid.get (g : Grid) (x y : ℕ) : Option ℚ :=
  if x ≥ g.width ∨ y ≥ g.height then none else some (g.getU x y)

/-- Source `Grid::absorb`: zero every cell below `min`. -/
def Grid.absorb (g : Grid) (min : ℚ) : Grid :=
  ⟨g.data.map (fun x => if x < min then 0 else x), g.width, g.height⟩

/-- The body of the double loop in `Grid::diffuse` for one interior cell
`p = (x, y)`: `self[(x,y)] *= 1 - 4*dt/(dx*dx)*kappa - dt*decay;`
then `self[(x,y)] += dt/(dx*dx)*kappa * (cpy[(x+1,y)] + cpy[(x-1,y)] +
cpy[(x,y+1)] + cpy[(x,y-1)])`, reading neighbours from the pre-step
snapshot `cpy` and the cell itself from the grid being written. -/
def Grid.diffuseStep (cpy : Grid) (kappa decay dx dt : ℚ) (g : Grid)
    (p : ℕ × ℕ) : Grid :=
  g.setU p.1 p.2
    (g.getU p.1 p.2 * (1 - 4 * dt / (dx * dx) * kappa - dt * decay) +
      dt / (dx * dx) * kappa *
        (cpy.getU (p.1 + 1) p.2 + cpy.getU (p.1 - 1) p.2 +
          cpy.getU p.1 (p.2 + 1) + cpy.getU p.1 (p.2 - 1)))

/-- The iteration order of the double loop
`for x in 1..width-1 { for y in 1..height-1 { ... } }`. -/
def interiorPairs (w h : ℕ) : List (ℕ × ℕ) :=
  (List.range' 1 (w - 2)).flatMap (fun x => (List.range' 1 (h - 2)).map (fun y => (x, y)))

/-- Source `Grid::diffuse` without its leading assertion: snapshot the grid
(`let cpy = self.clone()`) and update every interior cell in loop order. -/
def Grid.diffuse (g : Grid) (kappa decay dx dt : ℚ) : Grid :=
  (interiorPairs g.width g.height).foldl (Grid.diffuseStep g kappa decay dx dt) g

/-- The CFL-like stability check of the assertion
`assert!(1.0 - 4.0 * dt / (dx * dx) * kappa - dt * decay > 0.0)`. -/
def diffuseOk (kappa decay dx dt : ℚ) : Bool :=
  decide (0 < 1 - 4 * dt / (dx * dx) * kappa - dt * decay)

/-- Source `Grid::diffuse` including the assertion: `none` models the hard fault. -/
def Grid.diffuseChecked (g : Grid) (kappa decay dx dt : ℚ) : Option Grid :=
  if diffuseOk kappa decay dx dt then some (g.diffuse kappa decay dx dt) else none

/-- The integer cell coordinate `((p - bounds.min) / dx).floor() as usize`
(the Rust `as usize` conversion saturates negative values to `0`). -/
def cellCoord (pos bmin dx : ℚ) : ℕ :=
  (⌊(pos - bmin) / dx⌋).toNat

/-- Source `Grid::add_sources`: for each walker position add `dt * mag_per_sec` to
its cell; an out-of-range flat index is a hard fault (`none`), mirroring the
unchecked `self[(x, y)] += ...`. -/
def Grid.add_sources (g : Grid) (walkers : List (ℚ × ℚ))
    (minx miny dx dt magPerSec : ℚ) : Option Grid :=
  match walkers with
  | [] => some g
  | w :: rest =>
    let x := cellCoord w.1 minx dx
    let y := cellCoord w.2 miny dx
    match g.read x y with
    | none => none
    | some c => (g.setU x y (c + dt * magPerSec)).add_sources rest minx miny dx dt magPerSec

/-! ### Grid lemmas -/

theorem Grid.length_setU (g : Grid) (x y : ℕ) (v : ℚ) :
    (g.setU x y v).data.length = g.data.length :=
  List.length_set g.data (g.idx x y) v

theorem Grid.width_setU (g : Grid) (x y : ℕ) (v : ℚ) :
    (g.setU x y v).width = g.width := rfl

theorem Grid.height_setU (g : Grid) (x y : ℕ) (v : ℚ) :
    (g.setU x y v).height = g.height := rfl

theorem Grid.idx_setU (g : Grid) (x y a b : ℕ) (v : ℚ) :
    (g.setU x y v).idx a b = g.idx a b := rfl

/-- Distinct in-row-range coordinates have distinct flat indices. -/
theorem Grid.idx_inj (g : Grid) (x y a b : ℕ) (hx : x < g.width)
    (ha : a < g.width) (h : g.idx x y = g.idx a b) : x = a ∧ y = b := by
  unfold Grid.idx at h
  have hxa : x = a := by
    have h1 : (y * g.width + x) % g.width = x := by
      rw [Nat.add_comm, Nat.add_mul_mod_self_right, Nat.mod_eq_of_lt hx]
    have h2 : (b * g.width + a) % g.width = a := by
      rw [Nat.add_comm, Nat.add_mul_mod_self_right, Nat.mod_eq_of_lt ha]
    rw [h] at h1
    exact h1.symm.trans h2
  refine ⟨hxa, ?_⟩
  subst hxa
  have hw : 0 < g.width := Nat.pos_of_ne_zero (by omega)
  have := Nat.add_right_cancel h
  exact Nat.eq_of_mul_eq_mul_right hw this

theorem Grid.getU_setU_same (g : Grid) (x y : ℕ) (v : ℚ)
    (h : g.idx x y < g.data.length) : (g.setU x y v).getU x y = v := by
  unfold Grid.getU Grid.setU
  simp only [Grid.idx]
  rw [List.getD_eq_getElem?_getD, List.getElem?_set_self (by simpa [Grid.idx] using h)]
  rfl

theorem Grid.getU_setU_ne (g : Grid) (x y a b : ℕ) (v : ℚ)
    (hne : g.idx x y ≠ g.idx a b) : (g.setU a b v).getU x y = g.getU x y := by
  unfold Grid.getU Grid.setU
  simp only [Grid.idx] at hne ⊢
  rw [List.getD_eq_getElem?_getD, List.getD_eq_getElem?_getD,
    List.getElem?_set_ne (by simpa [Grid.idx] using (Ne.symm hne))]

/-! ## Claim C5 -/

/-- Claim C5: `diffuse(kappa, decay, dx, dt)` faults (fails its assertion) if
and only if `1 - 4*dt*kappa/dx^2 - dt*decay <= 0`; in particular the exact
stability boundary (the quantity equal to `0`) is rejected, and whenever the
quantity is strictly positive `diffuse` completes without fault. -/
theorem claim_C5_stability (g : Grid) (kappa decay dx dt : ℚ) :
    (g.diffuseChecked kappa decay dx dt = none ↔
      1 - 4 * dt * kappa / (dx * dx) - dt * decay ≤ 0) ∧
    (g.diffuseChecked kappa decay dx dt ≠ none ↔
      0 < 1 - 4 * dt * kappa / (dx * dx) - dt * decay) := by
  have hexpr : 1 - 4 * dt / (dx * dx) * kappa - dt * decay =
      1 - 4 * dt * kappa / (dx * dx) - dt * decay := by ring
  unfold Grid.diffuseChecked diffuseOk
  rw [hexpr]
  constructor
  · constructor
    · intro h
      by_contra hlt
      push_neg at hlt
      simp [hlt] at h
    · intro h
      have : ¬ (0 < 1 - 4 * dt * kappa / (dx * dx) - dt * decay) := not_lt.mpr h
      simp [this]
  · constructor
    · intro h
      by_contra hlt
      push_neg at hlt
      have : ¬ (0 < 1 - 4 * dt * kappa / (dx * dx) - dt * decay) := not_lt.mpr hlt
      simp [this] at h
    · intro h
      simp [h]

/-! ## Claim C4 -/

/-- The value written to interior cell `(x, y)` by the diffusion loop, as a
function of the cell's own pre-write value `own` and the snapshot `cpy`. -/
def diffVal (cpy : Grid) (kappa decay dx dt : ℚ) (own : ℚ) (x y : ℕ) : ℚ :=
  own * (1 - 4 * dt / (dx * dx) * kappa - dt * decay) +
    dt / (dx * dx) * kappa *
      (cpy.getU (x + 1) y + cpy.getU (x - 1) y + cpy.getU x (y + 1) + cpy.getU x (y - 1))

theorem Grid.diffuseStep_eq (cpy : Grid) (kappa decay dx dt : ℚ) (g : Grid) (p : ℕ × ℕ) :
    Grid.diffuseStep cpy kappa decay dx dt g p
      = g.setU p.1 p.2 (diffVal cpy kappa decay dx dt (g.getU p.1 p.2) p.1 p.2) := rfl

theorem Grid.idx_lt_length (g : Grid) (x y : ℕ)
    (hlen : g.data.length = g.width * g.height)
    (hx : x < g.width) (hy : y < g.height) : g.idx x y < g.data.length := by
  unfold Grid.idx
  rw [hlen]
  calc y * g.width + x < y * g.width + g.width := by omega
    _ = (y + 1) * g.width := by ring
    _ ≤ g.height * g.width := Nat.mul_le_mul_right _ (by omega)
    _ = g.width * g.height := Nat.mul_comm _ _

/-- Folding the loop body over a duplicate-free list of in-range cells
updates exactly the listed cells, each by one application of `diffVal` to its
pre-fold value, and leaves every other cell unchanged. -/
theorem foldl_diffuseStep_getU (cpy : Grid) (kappa decay dx dt : ℚ)
    (L : List (ℕ × ℕ)) :
    ∀ g : Grid, g.data.length = g.width * g.height →
      (∀ p ∈ L, p.1 < g.width ∧ p.2 < g.height) → L.Nodup →
      ∀ x y : ℕ, x < g.width → y < g.height →
        (L.foldl (Grid.diffuseStep cpy kappa decay dx dt) g).getU x y =
          if (x, y) ∈ L then diffVal cpy kappa decay dx dt (g.getU x y) x y
          else g.getU x y := by
  induction L with
  | nil => intro g _ _ _ x y _ _; simp
  | cons p L ih =>
    intro g hlen hL hnd x y hx hy
    have hpw : p.1 < g.width := (hL p (List.mem_cons_self p L)).1
    have hph : p.2 < g.height := (hL p (List.mem_cons_self p L)).2
    have hL2 : ∀ q ∈ L, q.1 < g.width ∧ q.2 < g.height :=
      fun q hq => hL q (List.mem_cons_of_mem p hq)
    have hnd2 : L.Nodup := (List.nodup_cons.mp hnd).2
    have hpnot : p ∉ L := (List.nodup_cons.mp hnd).1
    set g2 := Grid.diffuseStep cpy kappa decay dx dt g p with hg2
    have hlen2 : g2.data.length = g2.width * g2.height := by
      rw [hg2, Grid.diffuseStep_eq, Grid.length_setU, Grid.width_setU, Grid.height_setU]
      exact hlen
    have hih := ih g2 hlen2 (fun q hq => hL2 q hq) hnd2 x y hx hy
    by_cases hxy : (x, y) = p
    · obtain ⟨a, b⟩ := p
      obtain ⟨hxa, hyb⟩ := Prod.mk.injEq x y a b ▸ hxy
      subst hxa; subst hyb
      rw [List.foldl_cons, hih, if_neg (by simpa using hpnot),
        if_pos (List.mem_cons_self _ _)]
      rw [hg2, Grid.diffuseStep_eq]
      exact Grid.getU_setU_same g x y _ (Grid.idx_lt_length g x y hlen hx hy)
    · have hidx : g.idx x y ≠ g.idx p.1 p.2 := by
        intro hcontra
        obtain ⟨h1, h2⟩ := Grid.idx_inj g x y p.1 p.2 hx hpw hcontra
        exact hxy (by rw [h1, h2])
      have hgu : g2.getU x y = g.getU x y := by
        rw [hg2, Grid.diffuseStep_eq]
        exact Grid.getU_setU_ne g x y p.1 p.2 _ hidx
      rw [List.foldl_cons, hih, hgu]
      by_cases hmem : (x, y) ∈ L
      · rw [if_pos hmem, if_pos (List.mem_cons_of_mem p hmem)]
      · rw [if_neg hmem, if_neg (by simp [hxy, hmem])]

theorem mem_interiorPairs (w h a b : ℕ) :
    (a, b) ∈ interiorPairs w h ↔ 1 ≤ a ∧ a + 1 < w ∧ 1 ≤ b ∧ b + 1 < h := by
  unfold interiorPairs
  simp only [List.mem_flatMap, List.mem_map, List.mem_range'_1, Prod.mk.injEq]
  constructor
  · rintro ⟨x, ⟨hx1, hx2⟩, y, ⟨hy1, hy2⟩, hxy1, hxy2⟩
    subst hxy1; subst hxy2
    omega
  · rintro ⟨h1, h2, h3, h4⟩
    exact ⟨a, ⟨h1, by omega⟩, b, ⟨h3, by omega⟩, rfl, rfl⟩

theorem nodup_interiorPairs (w h : ℕ) : (interiorPairs w h).Nodup := by
  unfold interiorPairs
  rw [List.nodup_flatMap]
  constructor
  · intro x _
    exact (List.nodup_range' _ _).map (fun y1 y2 hy => by simpa using hy)
  · refine (List.nodup_range' 1 (w - 2)).imp ?_
    intro a b hab q hq1 hq2
    simp only [List.mem_map] at hq1 hq2
    obtain ⟨y1, _, hq1⟩ := hq1
    obtain ⟨y2, _, hq2⟩ := hq2
    rw [← hq2] at hq1
    exact hab (Prod.mk.injEq a y1 b y2 ▸ hq1).1

/-- Claim C4: under the stability precondition, `diffuse` updates every
interior cell `(1 <= x < w-1, 1 <= y < h-1)` to
`c[x,y]*(1 - 4*dt*kappa/dx^2 - dt*decay)
  + (dt*kappa/dx^2)*(c[x+1,y] + c[x-1,y] + c[x,y+1] + c[x,y-1])`
with all right-hand-side values taken from the pre-step grid, and leaves
every boundary cell unchanged. -/
theorem claim_C4_diffuse_update (g g2 : Grid) (kappa decay dx dt : ℚ) (x y : ℕ)
    (hstab : g.diffuseChecked kappa decay dx dt = some g2)
    (hlen : g.data.length = g.width * g.height)
    (hx : x < g.width) (hy : y < g.height) :
    ((1 ≤ x ∧ x + 1 < g.width ∧ 1 ≤ y ∧ y + 1 < g.height) →
      g2.getU x y =
        g.getU x y * (1 - 4 * dt * kappa / (dx * dx) - dt * decay) +
          dt * kappa / (dx * dx) *
            (g.getU (x + 1) y + g.getU (x - 1) y + g.getU x (y + 1) +
              g.getU x (y - 1)))
    ∧ ((x = 0 ∨ x + 1 = g.width ∨ y = 0 ∨ y + 1 = g.height) →
      g2.getU x y = g.getU x y) := by
  have hg2 : g2 = g.diffuse kappa decay dx dt := by
    unfold Grid.diffuseChecked at hstab
    by_cases hok : diffuseOk kappa decay dx dt <;> simp [hok] at hstab
    exact hstab.symm
  subst hg2
  have hmain := foldl_diffuseStep_getU g kappa decay dx dt
    (interiorPairs g.width g.height) g hlen
    (fun p hp => by
      obtain ⟨a, b⟩ := p
      have := (mem_interiorPairs g.width g.height a b).mp hp
      exact ⟨by omega, by omega⟩)
    (nodup_interiorPairs _ _) x y hx hy
  constructor
  · intro hint
    rw [Grid.diffuse, hmain,
      if_pos ((mem_interiorPairs g.width g.height x y).mpr hint)]
    unfold diffVal
    ring
  · intro hbnd
    rw [Grid.diffuse, hmain, if_neg (fun hmem => by
      have := (mem_interiorPairs g.width g.height x y).mp hmem
      omega)]

/-! ## PRNG oracle -/

/-- The core's `XorShiftRng`, modelled as an oracle: `unif` holds the
uniform draws consumed by `gen_bool` (so `gen_bool(p)` returns `u < p` for
the next draw `u`, i.e. true with probability `p` for `u` uniform on
`[0,1)`), and `samples` holds the standardized draws consumed by the
`Normal` and `Exp` distributions. An exhausted stream repeats a default
draw. -/
structure Rng where
  unif : List ℚ
  samples : List ℚ
  deriving DecidableEq, Repr

/-- Source `rng.gen_bool(p)`: Bernoulli(p) through the next uniform draw. -/
def Rng.genBool (r : Rng) (p : ℚ) : Bool × Rng :=
  match r.unif with
  | [] => (false, r)
  | u :: rest => (decide (u < p), ⟨rest, r.samples⟩)

/-- The next distribution draw. -/
def Rng.sample (r : Rng) : ℚ × Rng :=
  match r.samples with
  | [] => (0, r)
  | z :: rest => (z, ⟨r.unif, rest⟩)

/-- Source `rand::Rng::gen_bool(p)` panics unless `0 <= p <= 1`; `none` models the
panic. -/
def Rng.genBoolChecked (r : Rng) (p : ℚ) : Option (Bool × Rng) :=
  if 0 ≤ p ∧ p ≤ 1 then some (r.genBool p) else none

/-! ## Disease state machine (`sim/src/pandemic/mod.rs`) -/

/-- Source `enum StateEvent`. -/
inductive SEvent where
  | exposition
  | incubation
  | hospitalization
  | recovery
  | death
  deriving DecidableEq, Repr

/-- Source `struct Event`: the next scheduled transition kind, the two carried
lifetime probabilities, and the scheduled absolute time. -/
structure Event where
  s : SEvent
  p_hosp : ℚ
  p_death : ℚ
  t : AnyTime
  deriving DecidableEq, Repr

/-- Source `enum State`. Each non-terminal variant carries `(Event, Time)` where
the second component is the time of the last transition (`since`). -/
inductive State where
  | sane : Event × ℚ → State
  | exposed : Event × ℚ → State
  | infectious : Event × ℚ → State
  | hospitalized : Event × ℚ → State
  | recovered : ℚ → State
  | dead : ℚ → State
  deriving DecidableEq, Repr

/-- Source `State::T_INF = 3600. * 24. * 1.`. -/
def State.T_INF : ℚ := 3600 * 24

/-- Source `State::T_INC = 3600. * 24. * 1. / 24.`. -/
def State.T_INC : ℚ := 3600 * 24 / 24

/-- Source `State::R_0 = 2.5`. -/
def State.R_0 : ℚ := 5 / 2

/-- Source `State::E_RATIO = 0.2` (renamed; returned by `ini_exposed_ratio`). -/
def State.ratioE : ℚ := 1 / 5

/-- Source `State::I_RATIO = 0.5` (renamed; returned by `ini_infectious_ratio`). -/
def State.ratioI : ℚ := 1 / 2

/-- Source `State::get_time_normal(mu, sigma)`: `Duration::seconds` of a
`Normal(mu, sigma)` sample, modelled as `mu + sigma * z` for the next
oracle draw `z`. -/
def State.get_time_normal (mu sigma : ℚ) (r : Rng) : ℚ × Rng :=
  match r.sample with
  | (z, r2) => (mu + sigma * z, r2)

/-- Source `State::get_time_exp(lambda)`: an `Exp(lambda)` sample, modelled as
`z / lambda` for the next oracle draw `z`. -/
def State.get_time_exp (lambda : ℚ) (r : Rng) : ℚ × Rng :=
  match r.sample with
  | (z, r2) => (z / lambda, r2)

/-- Source `Event::next(now, rng)`: returns the successor state and the optional
newly scheduled time, threading the RNG. In the source both arms of the
`Incubation` (resp. `Hospitalization`) match draw the Gaussian after the
same `gen_bool`, so the draw is hoisted out of the branch here, preserving
the stream consumption order (`gen_bool` first, sample second). -/
def Event.next (e : Event) (now : ℚ) (r : Rng) : State × Option ℚ × Rng :=
  match e.s with
  | SEvent.exposition =>
    match State.get_time_normal State.T_INC (State.T_INC / 4) r with
    | (d, r2) =>
      (State.exposed
        ({ s := SEvent.incubation, p_hosp := e.p_hosp, p_death := e.p_death,
           t := AnyTime.fin (now + d) }, now),
        some (now + d), r2)
  | SEvent.incubation =>
    match r.genBool e.p_death with
    | (b, r2) =>
      match State.get_time_normal State.T_INF (State.T_INF / 4) r2 with
      | (d, r3) =>
        (State.infectious
          ({ s := if b then SEvent.recovery else SEvent.hospitalization,
             p_hosp := e.p_hosp, p_death := e.p_death,
             t := AnyTime.fin (now + d) }, now),
          some (now + d), r3)
  | SEvent.hospitalization =>
    match r.genBool e.p_hosp with
    | (b, r2) =>
      match State.get_time_normal State.T_INF (State.T_INF / 4) r2 with
      | (d, r3) =>
        (State.hospitalized
          ({ s := if b then SEvent.recovery else SEvent.death,
             p_hosp := e.p_hosp, p_death := e.p_death,
             t := AnyTime.fin (now + d) }, now),
          some (now + d), r3)
  | SEvent.death => (State.dead now, none, r)
  | SEvent.recovery => (State.recovered now, none, r)

/-- Source `Time::START_OF_DAY`, as seconds. -/
def startOfDay : ℚ := 0

/-- Source `std::f64::MAX`, exactly. -/
def fmax : ℚ := 2 ^ 1024 - 2 ^ 971

/-- Source `State::new(p_hosp, p_death)`: a `Sane` state whose `Exposition` event
is scheduled at `+∞`. -/
def State.new (p_hosp p_death : ℚ) : State :=
  State.sane (⟨SEvent.exposition, p_hosp, p_death, AnyTime.inf⟩, startOfDay)

/-- Source `State::is_sane`. -/
def State.is_sane : State → Bool
  | State.sane (ev, _) => !ev.t.isFinite
  | _ => false

/-- Source `State::is_exposed`. -/
def State.is_exposed : State → Bool
  | State.exposed _ => true
  | _ => false

/-- Source `State::is_infectious` (true for `Infectious` and `Hospitalized`). -/
def State.is_infectious : State → Bool
  | State.infectious _ => true
  | State.hospitalized _ => true
  | _ => false

/-- Source `State::is_recovered`. -/
def State.is_recovered : State → Bool
  | State.recovered _ => true
  | _ => false

/-- Source `State::is_dead`. -/
def State.is_dead : State → Bool
  | State.dead _ => true
  | _ => false

/-- Constructor test used in statements: is the variant `Sane`? -/
def State.isSaneVariant : State → Bool
  | State.sane _ => true
  | _ => false

/-- Source `State::get_time`. -/
def State.get_time : State → Option ℚ
  | State.sane _ => none
  | State.recovered t => some t
  | State.dead t => some t
  | State.exposed (_, t) => some t
  | State.infectious (_, t) => some t
  | State.hospitalized (_, t) => some t

/-- Source `State::get_event_time`. -/
def State.get_event_time : State → Option AnyTime
  | State.sane (ev, _) => some ev.t
  | State.exposed (ev, _) => some ev.t
  | State.infectious (ev, _) => some ev.t
  | State.hospitalized (ev, _) => some ev.t
  | State.recovered _ => none
  | State.dead _ => none

/-- Observer used in statements only: the whole carried `Event`. -/
def State.eventOf : State → Option Event
  | State.sane (ev, _) => some ev
  | State.exposed (ev, _) => some ev
  | State.infectious (ev, _) => some ev
  | State.hospitalized (ev, _) => some ev
  | State.recovered _ => none
  | State.dead _ => none

/-- Source `State::next_default(default, rng)`. -/
def State.next_default (st : State) (default : ℚ) (r : Rng) :
    State × Option ℚ × Rng :=
  match st with
  | State.sane (ev, _) => (State.sane (ev, default), some default, r)
  | State.exposed (ev, _) => ev.next default r
  | State.infectious (ev, _) => ev.next default r
  | State.hospitalized (ev, _) => ev.next default r
  | State.recovered _ => (State.recovered default, none, r)
  | State.dead _ => (State.dead default, none, r)

/-- Source `State::next(now, rng)`. -/
def State.next (st : State) (now : ℚ) (r : Rng) : State × Option ℚ × Rng :=
  match st with
  | State.sane (ev, t) => (State.sane (ev, t), some t, r)
  | State.exposed (ev, _) => ev.next now r
  | State.infectious (ev, _) => ev.next now r
  | State.hospitalized (ev, _) => ev.next now r
  | State.recovered t => (State.recovered t, none, r)
  | State.dead t => (State.dead t, none, r)

/-- Source `State::start(now, overlap, rng)`: only a `Sane` state may start
(`Err` on anything else, modelled as `none`); the contagion proceeds only
when `overlap >= Exp(R_0 / T_INF).sample()`. -/
def State.start (st : State) (now : ℚ) (overlap : ℚ) (r : Rng) :
    Option (State × Option ℚ × Rng) :=
  match st with
  | State.sane (ev, t) =>
    match State.get_time_exp (State.R_0 / State.T_INF) r with
    | (d, r2) =>
      if d ≤ overlap then some (ev.next now r2)
      else some (State.sane (ev, t), none, r2)
  | _ => none

/-- Source `State::start_now(now, rng)`: bypasses the exposure trial. -/
def State.start_now (st : State) (now : ℚ) (r : Rng) :
    Option (State × Option ℚ × Rng) :=
  match st with
  | State.sane (ev, _) => some (ev.next now r)
  | _ => none

/-! ## Claim C9 -/

/-- Claim C9: when the `Incubation` event fires, the `gen_bool(p_death)`
draw gates the branch: on success the person becomes `Infectious` with next
event `Recovery`, otherwise `Infectious` with next event `Hospitalization`;
when the `Hospitalization` event fires, `gen_bool(p_hosp)` gates
`Hospitalized` with next event `Recovery` versus `Hospitalized` with next
event `Death`; and the carried `p_hosp`, `p_death` fields propagate
unchanged into every successor state that still carries an event. -/
theorem claim_C9_branching (e : Event) (now : ℚ) (r : Rng) :
    (e.s = SEvent.incubation →
      Event.next e now r =
        (State.infectious
          ({ s := if (r.genBool e.p_death).1 then SEvent.recovery
                  else SEvent.hospitalization,
             p_hosp := e.p_hosp, p_death := e.p_death,
             t := AnyTime.fin (now +
               (State.get_time_normal State.T_INF (State.T_INF / 4)
                 (r.genBool e.p_death).2).1) }, now),
          some (now +
            (State.get_time_normal State.T_INF (State.T_INF / 4)
              (r.genBool e.p_death).2).1),
          (State.get_time_normal State.T_INF (State.T_INF / 4)
            (r.genBool e.p_death).2).2))
    ∧ (e.s = SEvent.hospitalization →
      Event.next e now r =
        (State.hospitalized
          ({ s := if (r.genBool e.p_hosp).1 then SEvent.recovery
                  else SEvent.death,
             p_hosp := e.p_hosp, p_death := e.p_death,
             t := AnyTime.fin (now +
               (State.get_time_normal State.T_INF (State.T_INF / 4)
                 (r.genBool e.p_hosp).2).1) }, now),
          some (now +
            (State.get_time_normal State.T_INF (State.T_INF / 4)
              (r.genBool e.p_hosp).2).1),
          (State.get_time_normal State.T_INF (State.T_INF / 4)
            (r.genBool e.p_hosp).2).2))
    ∧ (∀ ev2 : Event, State.eventOf (Event.next e now r).1 = some ev2 →
        ev2.p_hosp = e.p_hosp ∧ ev2.p_death = e.p_death) := by
  obtain ⟨s, ph, pd, t⟩ := e
  refine ⟨?_, ?_, ?_⟩
  · intro h
    simp only at h
    subst h
    rfl
  · intro h
    simp only at h
    subst h
    rfl
  · intro ev2 h
    cases s <;>
      simp only [Event.next, State.eventOf] at h <;>
      first
        | exact Option.noConfusion h
        | (cases h; exact ⟨rfl, rfl⟩)

/-- Witness for C9: a concrete incubation-end transition where the draw
`u = 0 < p_death = 1/20` succeeds, yielding `Infectious` with next event
`Recovery` at `0 + 86400`. -/
theorem claim_C9_witness :
    Event.next ⟨SEvent.incubation, 19/20, 1/20, AnyTime.inf⟩ 0 ⟨[0], [0]⟩ =
      (State.infectious (⟨SEvent.recovery, 19/20, 1/20, AnyTime.fin 86400⟩, 0),
        some 86400, ⟨[], []⟩) := by
  have h := (claim_C9_branching ⟨SEvent.incubation, 19/20, 1/20, AnyTime.inf⟩
    0 ⟨[0], [0]⟩).1 rfl
  rw [h]
  norm_num [Rng.genBool, State.get_time_normal, Rng.sample, State.T_INF]

/-! ## Claim C7 -/

theorem Rng.samples_genBool (r : Rng) (p : ℚ) :
    ((r.genBool p).2).samples = r.samples := by
  obtain ⟨us, zs⟩ := r
  cases us <;> rfl

theorem State.get_time_normal_val (mu sigma : ℚ) (r : Rng) :
    (State.get_time_normal mu sigma r).1 = mu + sigma * r.samples.headD 0 := by
  obtain ⟨us, zs⟩ := r
  cases zs <;> simp [State.get_time_normal, Rng.sample]

/-- Claim C7 (amended): along the `Exposed` / `Infectious` / `Hospitalized`
chain, every newly scheduled time is finite and equals the firing time plus
the Gaussian-sampled duration; when the transition fires at the previously
scheduled time and the oracle draw `z` satisfies `z >= -4` (equivalently,
the sampled duration `mu + (mu/4)*z` is non-negative), the new scheduled
time is greater than or equal to the previous one. Negative samples with
`z < -4` schedule strictly earlier times (see the counterexample); the
source tolerates them as past events that fire immediately. -/
theorem claim_C7_monotone (e : Event) (tp : ℚ) (r : Rng) (s2 : State)
    (t2 : ℚ) (r2 : Rng)
    (hz : ∀ z ∈ r.samples, -4 ≤ z)
    (ht : e.t = AnyTime.fin tp)
    (hnext : Event.next e tp r = (s2, some t2, r2)) :
    tp ≤ t2 ∧ State.get_event_time s2 = some (AnyTime.fin t2) := by
  obtain ⟨s, ph, pd, t⟩ := e
  have hd : ∀ mu : ℚ, 0 < mu → ∀ zl : List ℚ, (∀ z ∈ zl, -4 ≤ z) →
      0 ≤ mu + mu / 4 * zl.headD 0 := by
    intro mu hmu zl hzl
    cases zl with
    | nil => simpa using le_of_lt hmu
    | cons z zs =>
      have hz1 : -4 ≤ z := hzl z (List.mem_cons_self z zs)
      have hmul : mu / 4 * (-4) ≤ mu / 4 * z :=
        mul_le_mul_of_nonneg_left hz1 (by positivity)
      simp only [List.headD_cons]
      nlinarith
  cases s
  case exposition =>
    simp only [Event.next, Prod.ext_iff] at hnext
    obtain ⟨h1, h2, _⟩ := hnext
    rw [State.get_time_normal_val] at h1 h2
    obtain rfl := Option.some.injEq _ _ ▸ h2
    have := hd State.T_INC (by norm_num [State.T_INC]) r.samples hz
    constructor
    · have h4 : State.T_INC / 4 = State.T_INC / 4 := rfl
      nlinarith [this]
    · rw [← h1]
      rfl
  case incubation =>
    simp only [Event.next, Prod.ext_iff] at hnext
    obtain ⟨h1, h2, _⟩ := hnext
    rw [State.get_time_normal_val, Rng.samples_genBool] at h1 h2
    obtain rfl := Option.some.injEq _ _ ▸ h2
    have := hd State.T_INF (by norm_num [State.T_INF]) r.samples hz
    constructor
    · nlinarith [this]
    · rw [← h1]
      rfl
  case hospitalization =>
    simp only [Event.next, Prod.ext_iff] at hnext
    obtain ⟨h1, h2, _⟩ := hnext
    rw [State.get_time_normal_val, Rng.samples_genBool] at h1 h2
    obtain rfl := Option.some.injEq _ _ ▸ h2
    have := hd State.T_INF (by norm_num [State.T_INF]) r.samples hz
    constructor
    · nlinarith [this]
    · rw [← h1]
      rfl
  case recovery => simp [Event.next, Prod.ext_iff] at hnext
  case death => simp [Event.next, Prod.ext_iff] at hnext

/-- Claim C7 counterexample: an `Exposed` person whose incubation was
scheduled at time `10` fires the transition at `now = 10`; the Gaussian
oracle draw `z = -8` gives duration `86400 + 21600*(-8) = -86400 < 0`, so
the newly scheduled time `-86390` is strictly smaller than the previous
scheduled time `10` - the scheduled times are not monotone. -/
theorem claim_C7_counterexample :
    State.next
        (State.exposed (⟨SEvent.incubation, 19/20, 1/20, AnyTime.fin 10⟩, 0))
        10 ⟨[1], [-8]⟩ =
      (State.infectious
        (⟨SEvent.hospitalization, 19/20, 1/20, AnyTime.fin (-86390)⟩, 10),
        some (-86390), ⟨[], []⟩)
    ∧ (-86390 : ℚ) < 10 := by
  constructor
  · norm_num [State.next, Event.next, Rng.genBool, State.get_time_normal,
      Rng.sample, State.T_INF]
  · norm_num

/-- Witness for C7 (amended): a concrete incubation-end transition with
oracle draw `z = 2 >= -4`, fired at its scheduled time `5`; the new time
`5 + 86400 + 21600*2 = 129605` is `>= 5` and finite. -/
theorem claim_C7_witness :
    (∀ z ∈ ([2] : List ℚ), -4 ≤ z) ∧
    ((5 : ℚ) ≤ 129605 ∧
      State.get_event_time
        (State.infectious
          (⟨SEvent.hospitalization, 19/20, 1/20, AnyTime.fin 129605⟩, 5)) =
        some (AnyTime.fin 129605)) :=
  ⟨by norm_num,
    claim_C7_monotone ⟨SEvent.incubation, 19/20, 1/20, AnyTime.fin 5⟩ 5
      ⟨[1], [2]⟩
      (State.infectious
        (⟨SEvent.hospitalization, 19/20, 1/20, AnyTime.fin 129605⟩, 5))
      129605 ⟨[], []⟩ (by norm_num) rfl
      (by norm_num [Event.next, Rng.genBool, State.get_time_normal,
        Rng.sample, State.T_INF])⟩

/-- Concrete 3x3 grid used by the witness for C4. -/
def gC4 : Grid := ⟨[0, 1, 2, 3, 4, 105, 6, 7, 8], 3, 3⟩

/-- Witness for C4: the interior/boundary characterization instantiated at
the centre cell of a concrete 3x3 grid with `kappa = 1/100`, `decay = 0`,
`dx = dt = 1` (stability quantity `24/25 > 0`). -/
theorem claim_C4_witness :
    (gC4.diffuseChecked (1/100) 0 1 1 = some (gC4.diffuse (1/100) 0 1 1)) ∧
    (((1 ≤ 1 ∧ 1 + 1 < gC4.width ∧ 1 ≤ 1 ∧ 1 + 1 < gC4.height) →
        (gC4.diffuse (1/100) 0 1 1).getU 1 1 =
          gC4.getU 1 1 * (1 - 4 * 1 * (1/100) / (1 * 1) - 1 * 0) +
            1 * (1/100) / (1 * 1) *
              (gC4.getU (1 + 1) 1 + gC4.getU (1 - 1) 1 + gC4.getU 1 (1 + 1) +
                gC4.getU 1 (1 - 1))) ∧
      ((1 = 0 ∨ 1 + 1 = gC4.width ∨ 1 = 0 ∨ 1 + 1 = gC4.height) →
        (gC4.diffuse (1/100) 0 1 1).getU 1 1 = gC4.getU 1 1)) := by
  have hstab : gC4.diffuseChecked (1/100) 0 1 1 =
      some (gC4.diffuse (1/100) 0 1 1) := by
    simp only [Grid.diffuseChecked, diffuseOk, decide_eq_true_eq]
    norm_num
  exact ⟨hstab,
    claim_C4_diffuse_update gC4 _ (1/100) 0 1 1 1 1 hstab (by decide)
      (by decide) (by decide)⟩

/-! ## SharedSpace ledger (`sim/src/pandemic/pandemic.rs`) -/

/-- The `retain` pass of `person_leaves_space` over one space's occupant
list: keeps the non-matching occupants in order and records the entry time
of the (last) removed match, exactly like the source's closure mutating
`inside_since`. -/
def leavesScan (person : ℕ) (occ : List (ℕ × ℚ)) :
    Option ℚ × List (ℕ × ℚ) :=
  occ.foldl
    (fun acc e => if e.1 = person then (some e.2, acc.2) else (acc.1, acc.2 ++ [e]))
    (none, [])

/-- Source `SharedSpace::person_leaves_space` on the occupant list of one space:
the updated list plus the overlap vector
`(q, now - max(q_entry, inside_since))` over the remaining occupants in
order, or the "bug" signal `none` when the person has no entry. -/
def leaveOcc (now : ℚ) (person : ℕ) (occ : List (ℕ × ℚ)) :
    Option (List (ℕ × ℚ) × List (ℕ × ℚ)) :=
  match leavesScan person occ with
  | (none, _) => none
  | (some insideSince, rest) =>
    some (rest, rest.map (fun e => (e.1, now - max e.2 insideSince)))

/-- Source `struct SharedSpace<T>` with the (ordered, opaque) key type modelled by
`ℕ`: each space id maps to its ordered `(person, entry_time)` list. -/
structure SharedSpace where
  occupants : List (ℕ × List (ℕ × ℚ))
  deriving DecidableEq, Repr

/-- Lookup of `occupants[space]`, empty when absent
(`entry(space).or_insert_with(Vec::new)`). -/
def findAssoc (space : ℕ) (m : List (ℕ × List (ℕ × ℚ))) : List (ℕ × ℚ) :=
  match m with
  | [] => []
  | e :: rest => if e.1 = space then e.2 else findAssoc space rest

/-- Keyed update of `occupants[space]`, inserting the entry when absent. -/
def updateAssoc (space : ℕ) (v : List (ℕ × ℚ))
    (m : List (ℕ × List (ℕ × ℚ))) : List (ℕ × List (ℕ × ℚ)) :=
  match m with
  | [] => [(space, v)]
  | e :: rest => if e.1 = space then (e.1, v) :: rest else e :: updateAssoc space v rest

/-- Source `SharedSpace::new`. -/
def SharedSpace.new : SharedSpace := ⟨[]⟩

/-- Source `SharedSpace::person_enters_space`: append `(person, now)` to the
space's list. -/
def SharedSpace.person_enters_space (ss : SharedSpace) (now : ℚ)
    (person space : ℕ) : SharedSpace :=
  ⟨updateAssoc space (findAssoc space ss.occupants ++ [(person, now)])
    ss.occupants⟩

/-- Source `SharedSpace::person_leaves_space`. -/
def SharedSpace.person_leaves_space (ss : SharedSpace) (now : ℚ)
    (person space : ℕ) : Option (SharedSpace × List (ℕ × ℚ)) :=
  match leaveOcc now person (findAssoc space ss.occupants) with
  | none => none
  | some (rest, overlaps) => some (⟨updateAssoc space rest ss.occupants⟩, overlaps)

/-! ### Ledger lemmas -/

/-- The time component of the scan is a plain fold recording the last
matching entry time. -/
def lastEntryTime (person : ℕ) (occ : List (ℕ × ℚ)) (o : Option ℚ) : Option ℚ :=
  occ.foldl (fun a e => if e.1 = person then some e.2 else a) o

theorem leavesScan_go (person : ℕ) :
    ∀ (occ : List (ℕ × ℚ)) (o : Option ℚ) (acc : List (ℕ × ℚ)),
      occ.foldl
        (fun acc2 e => if e.1 = person then (some e.2, acc2.2)
                       else (acc2.1, acc2.2 ++ [e])) (o, acc) =
        (lastEntryTime person occ o,
          acc ++ occ.filter (fun e => decide (e.1 ≠ person))) := by
  intro occ
  induction occ with
  | nil => intro o acc; simp [lastEntryTime]
  | cons e occ ih =>
    intro o acc
    by_cases h : e.1 = person
    · simp only [List.foldl_cons, if_pos h, List.filter_cons,
        show decide (e.1 ≠ person) = false by simp [h]]
      rw [ih, lastEntryTime]
      simp [lastEntryTime, h]
    · simp only [List.foldl_cons, if_neg h, List.filter_cons,
        show decide (e.1 ≠ person) = true by simp [h]]
      rw [ih, lastEntryTime]
      simp [lastEntryTime, h]

theorem leavesScan_eq (person : ℕ) (occ : List (ℕ × ℚ)) :
    leavesScan person occ =
      (lastEntryTime person occ none,
        occ.filter (fun e => decide (e.1 ≠ person))) := by
  unfold leavesScan
  rw [leavesScan_go person occ none []]
  simp

theorem lastEntryTime_nomatch (person : ℕ) (l : List (ℕ × ℚ))
    (h : ∀ e ∈ l, e.1 ≠ person) (o : Option ℚ) :
    lastEntryTime person l o = o := by
  induction l generalizing o with
  | nil => rfl
  | cons e l ih =>
    rw [lastEntryTime, List.foldl_cons,
      if_neg (h e (List.mem_cons_self e l))]
    exact ih (fun q hq => h q (List.mem_cons_of_mem e hq)) o

theorem lastEntryTime_eq_none (person : ℕ) :
    ∀ (l : List (ℕ × ℚ)) (o : Option ℚ),
      lastEntryTime person l o = none ↔ (o = none ∧ ∀ e ∈ l, e.1 ≠ person) := by
  intro l
  induction l with
  | nil => intro o; simp [lastEntryTime]
  | cons e l ih =>
    intro o
    by_cases h : e.1 = person
    · rw [lastEntryTime, List.foldl_cons, if_pos h]
      rw [show (List.foldl (fun a e => if e.1 = person then some e.2 else a)
        (some e.2) l) = lastEntryTime person l (some e.2) from rfl, ih]
      simp [h]
    · rw [lastEntryTime, List.foldl_cons, if_neg h]
      rw [show (List.foldl (fun a e => if e.1 = person then some e.2 else a)
        o l) = lastEntryTime person l o from rfl, ih]
      simp only [List.mem_cons]
      constructor
      · rintro ⟨ho, hl⟩
        exact ⟨ho, fun q hq => hq.elim (fun hq2 => hq2 ▸ h) (hl q)⟩
      · rintro ⟨ho, hl⟩
        exact ⟨ho, fun q hq => hl q (Or.inr hq)⟩

theorem filter_nomatch (person : ℕ) (l : List (ℕ × ℚ))
    (h : ∀ e ∈ l, e.1 ≠ person) :
    l.filter (fun e => decide (e.1 ≠ person)) = l := by
  induction l with
  | nil => rfl
  | cons e l ih =>
    rw [List.filter_cons,
      if_pos (by simpa using h e (List.mem_cons_self e l))]
    rw [ih (fun q hq => h q (List.mem_cons_of_mem e hq))]

theorem lastEntryTime_append (person : ℕ) (l1 l2 : List (ℕ × ℚ)) (o : Option ℚ) :
    lastEntryTime person (l1 ++ l2) o = lastEntryTime person l2 (lastEntryTime person l1 o) := by
  unfold lastEntryTime
  rw [List.foldl_append]

theorem lastEntryTime_cons_match (person : ℕ) (e : ℕ × ℚ) (l : List (ℕ × ℚ))
    (h : e.1 = person) (o : Option ℚ) :
    lastEntryTime person (e :: l) o = lastEntryTime person l (some e.2) := by
  unfold lastEntryTime
  rw [List.foldl_cons, if_pos h]

theorem findAssoc_updateAssoc (space : ℕ) (v : List (ℕ × ℚ))
    (m : List (ℕ × List (ℕ × ℚ))) :
    findAssoc space (updateAssoc space v m) = v := by
  induction m with
  | nil => simp [updateAssoc, findAssoc]
  | cons e rest ih =>
    by_cases h : e.1 = space
    · rw [updateAssoc, if_pos h, findAssoc, if_pos h]
    · rw [updateAssoc, if_neg h, findAssoc, if_neg h]
      exact ih

/-! ## Claim C6 -/

/-- Claim C6: `person_leaves_space(now, person, space)` removes the unique
`(person, entry_time)` pair from that space's occupant list and returns,
for every remaining occupant `(q, q_entry)` in insertion order, the pair
`(q, now - max(entry_time, q_entry))`; it returns the bug signal `none`
exactly when no entry for the person exists in that space; and a person who
enters a space and then leaves while no other occupant is present receives
an empty overlap list. -/
theorem claim_C6_person_leaves (now : ℚ) (person space : ℕ)
    (ss : SharedSpace) (pre post : List (ℕ × ℚ)) (et : ℚ)
    (hocc : findAssoc space ss.occupants = pre ++ (person, et) :: post)
    (hpre : ∀ e ∈ pre, e.1 ≠ person) (hpost : ∀ e ∈ post, e.1 ≠ person) :
    (ss.person_leaves_space now person space =
      some (⟨updateAssoc space (pre ++ post) ss.occupants⟩,
        (pre ++ post).map (fun e => (e.1, now - max e.2 et))))
    ∧ (∀ ss2 : SharedSpace,
        ss2.person_leaves_space now person space = none ↔
          ∀ e ∈ findAssoc space ss2.occupants, e.1 ≠ person)
    ∧ (∀ (t0 : ℚ) (ssE : SharedSpace),
        findAssoc space ssE.occupants = [] →
        ∃ ss3 : SharedSpace,
          (ssE.person_enters_space t0 person space).person_leaves_space
            now person space = some (ss3, [])) := by
  have hscan : leavesScan person (pre ++ (person, et) :: post) =
      (some et, pre ++ post) := by
    rw [leavesScan_eq]
    have h1 : lastEntryTime person (pre ++ (person, et) :: post) none = some et := by
      rw [lastEntryTime_append, lastEntryTime_nomatch person pre hpre,
        lastEntryTime_cons_match person (person, et) post rfl,
        lastEntryTime_nomatch person post hpost]
    have h2 : (pre ++ (person, et) :: post).filter
        (fun e => decide (e.1 ≠ person)) = pre ++ post := by
      rw [List.filter_append, filter_nomatch person pre hpre, List.filter_cons]
      simp only [ne_eq, decide_not]
      rw [if_neg (by simp)]
      rw [show (fun e : ℕ × ℚ => !decide (e.1 = person)) =
        (fun e : ℕ × ℚ => decide (e.1 ≠ person)) from by
          funext e; simp [decide_not], filter_nomatch person post hpost]
    rw [h1, h2]
  refine ⟨?_, ?_, ?_⟩
  · unfold SharedSpace.person_leaves_space leaveOcc
    rw [hocc, hscan]
  · intro ss2
    unfold SharedSpace.person_leaves_space leaveOcc
    rw [leavesScan_eq]
    cases hl : lastEntryTime person (findAssoc space ss2.occupants) none with
    | none =>
      simp only
      constructor
      · intro _
        exact ((lastEntryTime_eq_none person _ none).mp hl).2
      · intro _
        trivial
    | some i =>
      simp only
      constructor
      · intro h
        exact Option.noConfusion h
      · intro hall
        rw [lastEntryTime_nomatch person _ hall none] at hl
        exact Option.noConfusion hl
  · intro t0 ssE hE
    refine ⟨⟨updateAssoc space []
      (ssE.person_enters_space t0 person space).occupants⟩, ?_⟩
    have hfind : findAssoc space
        (ssE.person_enters_space t0 person space).occupants = [(person, t0)] := by
      unfold SharedSpace.person_enters_space
      rw [findAssoc_updateAssoc, hE]
      rfl
    unfold SharedSpace.person_leaves_space leaveOcc
    rw [hfind, leavesScan_eq]
    have h1 : lastEntryTime person [(person, t0)] none = some t0 := by
      rw [lastEntryTime_cons_match person (person, t0) [] rfl]
      rfl
    have h2 : ([(person, t0)] : List (ℕ × ℚ)).filter
        (fun e => decide (e.1 ≠ person)) = [] := by
      simp
    rw [h1, h2]
    rfl

/-- Witness for C6: in a space `4` with occupants
`[(1, 0), (2, 3), (3, 5)]`, person `2` leaves at `now = 10`. -/
theorem claim_C6_witness :
    ((⟨[(4, [(1, 0), (2, 3), (3, 5)])]⟩ : SharedSpace).person_leaves_space 10 2 4 =
      some (⟨updateAssoc 4 (([(1, 0)] : List (ℕ × ℚ)) ++ [(3, 5)])
          (⟨[(4, [(1, 0), (2, 3), (3, 5)])]⟩ : SharedSpace).occupants⟩,
        (([(1, 0)] : List (ℕ × ℚ)) ++ [(3, 5)]).map
          (fun e : ℕ × ℚ => (e.1, 10 - max e.2 3))))
    ∧ (∀ ss2 : SharedSpace,
        ss2.person_leaves_space 10 2 4 = none ↔
          ∀ e ∈ findAssoc 4 ss2.occupants, e.1 ≠ 2)
    ∧ (∀ (t0 : ℚ) (ssE : SharedSpace),
        findAssoc 4 ssE.occupants = [] →
        ∃ ss3 : SharedSpace,
          (ssE.person_enters_space t0 2 4).person_leaves_space 10 2 4 =
            some (ss3, [])) :=
  claim_C6_person_leaves 10 2 4 ⟨[(4, [(1, 0), (2, 3), (3, 5)])]⟩
    [(1, 0)] [(3, 5)] 3 (by simp [findAssoc]) (by simp) (by simp)

/-! ## Commands and orchestrator (`sim/src/pandemic/pandemic.rs`) -/

/-- Source `enum Cmd`. -/
inductive Cmd where
  | poll
  | becomeHospitalized (p : ℕ)
  | becomeQuarantined (p : ℕ)
  | cancelFutureTrips (p : ℕ)
  | transition (p : ℕ)
  | transmission (p : ℕ)
  deriving DecidableEq, Repr

/-- Source `impl From<(State, PersonID)> for Cmd`: `Sane` maps to `Transmission`,
the three progressing variants to `Transition`, and the terminal variants
are `unreachable!()` (modelled by `none`). -/
def Cmd.fromState : State → ℕ → Option Cmd
  | State.sane _, p => some (Cmd.transmission p)
  | State.exposed _, p => some (Cmd.transition p)
  | State.infectious _, p => some (Cmd.transition p)
  | State.hospitalized _, p => some (Cmd.transition p)
  | State.recovered _, _ => none
  | State.dead _, _ => none

/-- The recurring source pattern `match (state, opt_time) { (s, Some(t)) =>
{ scheduler.push(t, Command::Pandemic(Cmd::from((s, p)))); s } (s, None) => s }`:
the pushes it performs, `none` when `Cmd::from` hits `unreachable!()`. -/
def pushFrom (p : ℕ) (s : State) (topt : Option ℚ) : Option (List (ℚ × Cmd)) :=
  match topt with
  | some t => (Cmd.fromState s p).map (fun c => [(t, c)])
  | none => some []

/-- Source `self.pop.get(&person)` on the association-list model of
`BTreeMap<PersonID, State>`. -/
def popLookup (p : ℕ) (l : List (ℕ × State)) : Option State :=
  match l with
  | [] => none
  | e :: rest => if e.1 = p then some e.2 else popLookup p rest

/-- Source `self.pop.remove(&person)` (the updated map). -/
def popRemove (p : ℕ) (l : List (ℕ × State)) : List (ℕ × State) :=
  l.filter (fun e => decide (e.1 ≠ p))

/-- Source `struct PandemicModel`. The map, scheduler and walker collaborators
stay external (spec section 6); pedestrian positions are plain points
`(x, y) : ℚ × ℚ`, and the scheduler is represented by the list of
`(time, command)` pushes an operation performs. -/
structure PandemicModel where
  pop : List (ℕ × State)
  concentration : Grid
  spacing : ℚ
  delta_t : ℚ
  bldgs : SharedSpace
  sidewalks : SharedSpace
  remote_bldgs : SharedSpace
  bus_stops : SharedSpace
  buses : SharedSpace
  person_to_bus : List (ℕ × ℕ)
  rng : Rng
  initialized : Bool
  deriving DecidableEq, Repr

/-- Source `PandemicModel::is_sane`; `none` models the `unreachable!()` on an
unknown person. -/
def PandemicModel.is_sane (m : PandemicModel) (person : ℕ) : Option Bool :=
  (popLookup person m.pop).map State.is_sane

/-- Source `PandemicModel::is_infectious`. -/
def PandemicModel.is_infectious (m : PandemicModel) (person : ℕ) : Option Bool :=
  (popLookup person m.pop).map State.is_infectious

/-- Source `PandemicModel::is_exposed`. -/
def PandemicModel.is_exposed (m : PandemicModel) (person : ℕ) : Option Bool :=
  (popLookup person m.pop).map State.is_exposed

/-- Source `PandemicModel::is_recovered`. -/
def PandemicModel.is_recovered (m : PandemicModel) (person : ℕ) : Option Bool :=
  (popLookup person m.pop).map State.is_recovered

/-- Source `PandemicModel::is_dead`. -/
def PandemicModel.is_dead (m : PandemicModel) (person : ℕ) : Option Bool :=
  (popLookup person m.pop).map State.is_dead

/-- Source `PandemicModel::get_time`. -/
def PandemicModel.get_time (m : PandemicModel) (person : ℕ) : Option (Option ℚ) :=
  (popLookup person m.pop).map State.get_time

/-- Source `PandemicModel::infectious_contact`: the susceptible member of the pair
when exactly one is `Sane` and the other `Infectious`/`Hospitalized`; the
outer `none` models the `unreachable!()` on an unknown person. -/
def PandemicModel.infectious_contact (m : PandemicModel) (person other : ℕ) :
    Option (Option ℕ) :=
  match popLookup person m.pop, popLookup other m.pop with
  | some sp, some so =>
    some (if sp.is_sane && so.is_infectious then some person
      else if sp.is_infectious && so.is_sane then some other
      else none)
  | _, _ => none

/-- Source `PandemicModel::transition`: remove the state, advance it with
`State::next`, push the next scheduled command if any, reinsert. -/
def PandemicModel.transition (m : PandemicModel) (now : ℚ) (person : ℕ) :
    Option (PandemicModel × List (ℚ × Cmd)) :=
  match popLookup person m.pop with
  | none => none
  | some st =>
    match State.next st now m.rng with
    | (s, topt, r2) =>
      match pushFrom person s topt with
      | none => none
      | some ps =>
        some ({ m with
          pop := popRemove person m.pop ++ [(person, s)]
          rng := r2 }, ps)

/-- Source `PandemicModel::become_exposed`: remove the state, assert the event
time is `+∞`, run the `State::start` exposure trial, push, reinsert. -/
def PandemicModel.become_exposed (m : PandemicModel) (now : ℚ)
    (overlap : ℚ) (person : ℕ) : Option (PandemicModel × List (ℚ × Cmd)) :=
  match popLookup person m.pop with
  | none => none
  | some st =>
    if st.get_event_time = some AnyTime.inf then
      match State.start st now overlap m.rng with
      | none => none
      | some (s, topt, r2) =>
        match pushFrom person s topt with
        | none => none
        | some ps =>
          some ({ m with
            pop := popRemove person m.pop ++ [(person, s)]
            rng := r2 }, ps)
    else none

/-- Source `PandemicModel::transmission`: run the pairwise exposure trials for a
departing person against the overlap vector. -/
def PandemicModel.transmission (m : PandemicModel) (now : ℚ) (person : ℕ)
    (others : List (ℕ × ℚ)) (acc : List (ℚ × Cmd)) :
    Option (PandemicModel × List (ℚ × Cmd)) :=
  match others with
  | [] => some (m, acc)
  | (other, overlap) :: rest =>
    match m.infectious_contact person other with
    | none => none
    | some none => m.transmission now person rest acc
    | some (some pid) =>
      match m.become_exposed now overlap pid with
      | none => none
      | some (m2, ps) => m2.transmission now person rest (acc ++ ps)

/-- Source `PandemicModel::pedestrian_transmission`: for each susceptible walker,
read the concentration at its cell (unchecked index), run
`gen_bool(concentration / 100)` (which faults outside `[0, 1]`), and on
success force the exposure with `State::start_now` and push the scheduled
command. -/
def PandemicModel.pedestrian_transmission (m : PandemicModel) (now : ℚ)
    (saneWalkers : List (ℕ × ℚ × ℚ)) (minx miny dx : ℚ)
    (acc : List (ℚ × Cmd)) : Option (PandemicModel × List (ℚ × Cmd)) :=
  match saneWalkers with
  | [] => some (m, acc)
  | (p, w) :: rest =>
    let x := cellCoord w.1 minx dx
    let y := cellCoord w.2 miny dx
    match m.concentration.read x y with
    | none => none
    | some c =>
      match m.rng.genBoolChecked (c / 100) with
      | none => none
      | some (b, r2) =>
        if b then
          match popLookup p m.pop with
          | none => none
          | some st =>
            if st.get_event_time = some AnyTime.inf then
              match State.start_now st now r2 with
              | none => none
              | some (s, topt, r3) =>
                match pushFrom p s topt with
                | none => none
                | some ps =>
                  PandemicModel.pedestrian_transmission
                    { m with
                      pop := popRemove p m.pop ++ [(p, s)]
                      rng := r3 }
                    now rest minx miny dx (acc ++ ps)
            else none
        else
          PandemicModel.pedestrian_transmission { m with rng := r2 }
            now rest minx miny dx acc

/-- The two `get_unzoomed_agents` filters of the `Poll` branch: infectious
pedestrians' positions (`x.person.unwrap()` and the `is_infectious` lookup
both fault on `none`). -/
def PandemicModel.collectInfectious (m : PandemicModel) :
    List (Option ℕ × ℚ × ℚ) → Option (List (ℚ × ℚ))
  | [] => some []
  | a :: rest =>
    match a.1 with
    | none => none
    | some pid =>
      match popLookup pid m.pop with
      | none => none
      | some st =>
        match m.collectInfectious rest with
        | none => none
        | some l => some (if st.is_infectious then a.2 :: l else l)

/-- The susceptible `(person, position)` filter of the `Poll` branch. -/
def PandemicModel.collectSane (m : PandemicModel) :
    List (Option ℕ × ℚ × ℚ) → Option (List (ℕ × ℚ × ℚ))
  | [] => some []
  | a :: rest =>
    match a.1 with
    | none => none
    | some pid =>
      match popLookup pid m.pop with
      | none => none
      | some st =>
        match m.collectSane rest with
        | none => none
        | some l => some (if st.is_sane then (pid, a.2) :: l else l)

/-- The `Cmd::Poll` branch of `handle_cmd`: partition the walkers, inject
sources, diffuse (hard fault when the stability assertion fails), absorb,
run the airborne exposure trials, and re-schedule `Poll` at
`now + delta_t`. -/
def PandemicModel.poll (m : PandemicModel) (now : ℚ)
    (walkers : List (Option ℕ × ℚ × ℚ)) (minx miny : ℚ) :
    Option (PandemicModel × List (ℚ × Cmd)) :=
  match m.collectInfectious walkers with
  | none => none
  | some infectiousPed =>
    match m.collectSane walkers with
    | none => none
    | some sanePed =>
      match (if infectiousPed.length > 0 then
          m.concentration.add_sources infectiousPed minx miny m.spacing m.delta_t 1
        else some m.concentration) with
      | none => none
      | some g1 =>
        match g1.diffuseChecked (2/1000) (2/1000) m.spacing m.delta_t with
        | none => none
        | some g2 =>
          let m2 := { m with concentration := g2.absorb (1/100) }
          match (if sanePed.length > 0 then
              m2.pedestrian_transmission now sanePed minx miny m.spacing []
            else some (m2, [])) with
          | none => none
          | some (m3, ps) => some (m3, ps ++ [(now + m.delta_t, Cmd.poll)])

/-- Source `PandemicModel::handle_cmd`. Faults (`none`): the `initialized`
assertion, `CancelFutureTrips` (reserved for the host), and `Transmission`
(`unreachable!()`). The walker query and map bounds of the `Poll` branch
are passed in as the external collaborators they are. -/
def PandemicModel.handle_cmd (m : PandemicModel) (now : ℚ) (cmd : Cmd)
    (walkers : List (Option ℕ × ℚ × ℚ)) (minx miny : ℚ) :
    Option (PandemicModel × List (ℚ × Cmd)) :=
  if m.initialized = false then none
  else
    match cmd with
    | Cmd.becomeHospitalized _ => some (m, [])
    | Cmd.becomeQuarantined _ => some (m, [])
    | Cmd.cancelFutureTrips _ => none
    | Cmd.poll => m.poll now walkers minx miny
    | Cmd.transition p => m.transition now p
    | Cmd.transmission _ => none

theorem popLookup_reinsert (p : ℕ) (s : State) (l : List (ℕ × State)) :
    popLookup p (popRemove p l ++ [(p, s)]) = some s := by
  induction l with
  | nil => simp [popRemove, popLookup]
  | cons e l ih =>
    by_cases h : e.1 = p
    · rw [popRemove, List.filter_cons, if_neg (by simp [h])]
      exact ih
    · rw [popRemove, List.filter_cons, if_pos (by simp [h])]
      rw [List.cons_append, popLookup, if_neg h]
      exact ih

/-! ## Claim C1 -/

/-- Modelled from the spec: the "numeric edge" rule for a concentration
outside `[0, 1]` before use as a probability is to clamp to the nearest
valid value (`clamp01`); the source passes the unclamped value to
`gen_bool`. -/
def clamp01 (q : ℚ) : ℚ := max 0 (min 1 q)

/-- The concrete model exhibiting C1's failing input: one susceptible
person `7` standing on the single cell of a 1x1 grid whose concentration is
`200`. -/
def mC1 : PandemicModel :=
  { pop := [(7, State.new (95/100) (5/100))]
    concentration := ⟨[200], 1, 1⟩
    spacing := 1
    delta_t := 1
    bldgs := SharedSpace.new
    sidewalks := SharedSpace.new
    remote_bldgs := SharedSpace.new
    bus_stops := SharedSpace.new
    buses := SharedSpace.new
    person_to_bus := []
    rng := ⟨[0], [0]⟩
    initialized := true }

/-- Claim C1 (code bug): the airborne exposure trial passes the unclamped
`grid[cell(pos)] / 100` to `gen_bool`; at cell concentration `200` the
parameter is `2`, violating the sampler's domain precondition
`0 <= p <= 1`, and `pedestrian_transmission` faults - whereas the spec's
`clamp01` always produces a parameter in `[0, 1]`. -/
theorem claim_C1_unclamped_probability :
    (mC1.pedestrian_transmission 0 [(7, 0, 0)] 0 0 1 [] = none)
    ∧ ((200 : ℚ) / 100 = 2 ∧ ¬ ((0 : ℚ) ≤ 2 ∧ (2 : ℚ) ≤ 1))
    ∧ (∀ c : ℚ, 0 ≤ clamp01 (c / 100) ∧ clamp01 (c / 100) ≤ 1) := by
  refine ⟨?_, ⟨by norm_num, by norm_num⟩, ?_⟩
  · have hcell : cellCoord 0 0 1 = 0 := by
      norm_num [cellCoord]
    have hread : mC1.concentration.read 0 0 = some 200 := rfl
    have hgen : mC1.rng.genBoolChecked (200 / 100) = none := by
      rw [Rng.genBoolChecked, if_neg (by norm_num)]
    rw [PandemicModel.pedestrian_transmission]
    simp only [hcell, hread, hgen]
  · intro c
    refine ⟨le_max_left 0 _, ?_⟩
    exact max_le (by norm_num) (min_le_left 1 (c / 100))

/-! ## Claim C8 -/

/-- Claim C8: `Recovered` and `Dead` are absorbing. `State::next` on a
terminal state returns the identical state with no scheduled time; a stale
`Transition` command for a terminal person leaves the person's state
unchanged and schedules nothing; and the pairwise-contact selector only
ever designates a `Sane` person for exposure, so no contact handling can
touch a terminal state. -/
theorem claim_C8_terminal_absorbing (m : PandemicModel) (now : ℚ) (p : ℕ)
    (t : ℚ) (walkers : List (Option ℕ × ℚ × ℚ)) (minx miny : ℚ)
    (hinit : m.initialized = true) :
    (∀ (t2 now2 : ℚ) (r : Rng),
      State.next (State.recovered t2) now2 r = (State.recovered t2, none, r)
      ∧ State.next (State.dead t2) now2 r = (State.dead t2, none, r))
    ∧ (popLookup p m.pop = some (State.recovered t) →
        m.handle_cmd now (Cmd.transition p) walkers minx miny =
          some ({ m with
            pop := popRemove p m.pop ++ [(p, State.recovered t)] }, [])
        ∧ popLookup p (popRemove p m.pop ++ [(p, State.recovered t)]) =
            some (State.recovered t))
    ∧ (popLookup p m.pop = some (State.dead t) →
        m.handle_cmd now (Cmd.transition p) walkers minx miny =
          some ({ m with
            pop := popRemove p m.pop ++ [(p, State.dead t)] }, [])
        ∧ popLookup p (popRemove p m.pop ++ [(p, State.dead t)]) =
            some (State.dead t))
    ∧ (∀ q1 q2 pid : ℕ, m.infectious_contact q1 q2 = some (some pid) →
        m.is_sane pid = some true) := by
  refine ⟨fun t2 now2 r => ⟨rfl, rfl⟩, ?_, ?_, ?_⟩
  · intro hpop
    constructor
    · rw [PandemicModel.handle_cmd, hinit]
      simp only [Bool.true_eq_false, if_false]
      rw [PandemicModel.transition, hpop, hinit]
      rfl
    · exact popLookup_reinsert p (State.recovered t) m.pop
  · intro hpop
    constructor
    · rw [PandemicModel.handle_cmd, hinit]
      simp only [Bool.true_eq_false, if_false]
      rw [PandemicModel.transition, hpop, hinit]
      rfl
    · exact popLookup_reinsert p (State.dead t) m.pop
  · intro q1 q2 pid h
    unfold PandemicModel.infectious_contact at h
    cases h1 : popLookup q1 m.pop with
    | none => rw [h1] at h; exact Option.noConfusion h
    | some sp =>
      cases h2 : popLookup q2 m.pop with
      | none => rw [h1, h2] at h; exact Option.noConfusion h
      | some so =>
        rw [h1, h2] at h
        have h3 := Option.some.inj h
        by_cases hc1 : sp.is_sane && so.is_infectious
        · rw [if_pos hc1] at h3
          obtain rfl := Option.some.inj h3
          rw [PandemicModel.is_sane, h1]
          rw [Bool.and_eq_true] at hc1
          show some sp.is_sane = some true
          rw [hc1.1]
        · rw [if_neg hc1] at h3
          by_cases hc2 : sp.is_infectious && so.is_sane
          · rw [if_pos hc2] at h3
            obtain rfl := Option.some.inj h3
            rw [PandemicModel.is_sane, h2]
            rw [Bool.and_eq_true] at hc2
            show some so.is_sane = some true
            rw [hc2.2]
          · rw [if_neg hc2] at h3
            exact Option.noConfusion h3

/-- Concrete model for the C8 witness: persons `1` (recovered at 5),
`2` (dead at 6), `3` (sane). -/
def mC8 : PandemicModel :=
  { pop := [(1, State.recovered 5), (2, State.dead 6),
      (3, State.new (95/100) (5/100))]
    concentration := Grid.zero 1 1
    spacing := 1
    delta_t := 1
    bldgs := SharedSpace.new
    sidewalks := SharedSpace.new
    remote_bldgs := SharedSpace.new
    bus_stops := SharedSpace.new
    buses := SharedSpace.new
    person_to_bus := []
    rng := ⟨[], []⟩
    initialized := true }

/-- Witness for C8, instantiated at the concrete model `mC8`, person `1`,
terminal time `5`. -/
theorem claim_C8_witness :
    (∀ (t2 now2 : ℚ) (r : Rng),
      State.next (State.recovered t2) now2 r = (State.recovered t2, none, r)
      ∧ State.next (State.dead t2) now2 r = (State.dead t2, none, r))
    ∧ (popLookup 1 mC8.pop = some (State.recovered 5) →
        mC8.handle_cmd 0 (Cmd.transition 1) [] 0 0 =
          some ({ mC8 with
            pop := popRemove 1 mC8.pop ++ [(1, State.recovered 5)] }, [])
        ∧ popLookup 1 (popRemove 1 mC8.pop ++ [(1, State.recovered 5)]) =
            some (State.recovered 5))
    ∧ (popLookup 1 mC8.pop = some (State.dead 5) →
        mC8.handle_cmd 0 (Cmd.transition 1) [] 0 0 =
          some ({ mC8 with
            pop := popRemove 1 mC8.pop ++ [(1, State.dead 5)] }, [])
        ∧ popLookup 1 (popRemove 1 mC8.pop ++ [(1, State.dead 5)]) =
            some (State.dead 5))
    ∧ (∀ q1 q2 pid : ℕ, mC8.infectious_contact q1 q2 = some (some pid) →
        mC8.is_sane pid = some true) :=
  claim_C8_terminal_absorbing mC8 0 1 5 [] 0 0 rfl

/-! ## Claim C10 -/

/-- Claim C10: delivering `Cmd::Transition(p)` for a `Sane` person leaves
the state unchanged but pushes `Cmd::Transmission(p)` at the person's
stored last-transition time (because `State::next` on `Sane` returns
`Some(last_transition)` and `Cmd::from` maps a `Sane` state to
`Transmission`); delivering that `Transmission` command to `handle_cmd` is
a hard fault (`unreachable!()`). -/
theorem claim_C10_sane_transition (m : PandemicModel) (now : ℚ) (p : ℕ)
    (ev : Event) (t : ℚ) (walkers : List (Option ℕ × ℚ × ℚ)) (minx miny : ℚ)
    (hinit : m.initialized = true)
    (hpop : popLookup p m.pop = some (State.sane (ev, t))) :
    (m.handle_cmd now (Cmd.transition p) walkers minx miny =
      some ({ m with pop := popRemove p m.pop ++ [(p, State.sane (ev, t))] },
        [(t, Cmd.transmission p)]))
    ∧ popLookup p (popRemove p m.pop ++ [(p, State.sane (ev, t))]) =
        some (State.sane (ev, t))
    ∧ (∀ (m3 : PandemicModel) (now3 : ℚ)
        (walkers3 : List (Option ℕ × ℚ × ℚ)) (minx3 miny3 : ℚ),
        m3.initialized = true →
        m3.handle_cmd now3 (Cmd.transmission p) walkers3 minx3 miny3 = none) := by
  refine ⟨?_, popLookup_reinsert p (State.sane (ev, t)) m.pop, ?_⟩
  · rw [PandemicModel.handle_cmd, hinit]
    simp only [Bool.true_eq_false, if_false]
    rw [PandemicModel.transition, hpop, hinit]
    rfl
  · intro m3 now3 walkers3 minx3 miny3 h3
    rw [PandemicModel.handle_cmd, h3]
    rfl

/-- Concrete model for the C10 witness: one `Sane` person `3` whose
last-transition time is `7`. -/
def mC10 : PandemicModel :=
  { pop := [(3, State.sane
      (⟨SEvent.exposition, 95/100, 5/100, AnyTime.inf⟩, 7))]
    concentration := Grid.zero 1 1
    spacing := 1
    delta_t := 1
    bldgs := SharedSpace.new
    sidewalks := SharedSpace.new
    remote_bldgs := SharedSpace.new
    bus_stops := SharedSpace.new
    buses := SharedSpace.new
    person_to_bus := []
    rng := ⟨[], []⟩
    initialized := true }

/-- Witness for C10, at the concrete model `mC10`. -/
theorem claim_C10_witness :
    (mC10.handle_cmd 0 (Cmd.transition 3) [] 0 0 =
      some ({ mC10 with pop := popRemove 3 mC10.pop ++
        [(3, State.sane (⟨SEvent.exposition, 95/100, 5/100, AnyTime.inf⟩, 7))] },
        [(7, Cmd.transmission 3)]))
    ∧ popLookup 3 (popRemove 3 mC10.pop ++
        [(3, State.sane (⟨SEvent.exposition, 95/100, 5/100, AnyTime.inf⟩, 7))]) =
        some (State.sane (⟨SEvent.exposition, 95/100, 5/100, AnyTime.inf⟩, 7))
    ∧ (∀ (m3 : PandemicModel) (now3 : ℚ)
        (walkers3 : List (Option ℕ × ℚ × ℚ)) (minx3 miny3 : ℚ),
        m3.initialized = true →
        m3.handle_cmd now3 (Cmd.transmission 3) walkers3 minx3 miny3 = none) :=
  claim_C10_sane_transition mC10 0 3
    ⟨SEvent.exposition, 95/100, 5/100, AnyTime.inf⟩ 7 [] 0 0 rfl rfl

/-! ## Initialization (`PandemicModel::initialize`) -/

/-- The per-person body of the `initialize` loop: create
`State::new(0.95, 0.05)`; with probability `E_RATIO` run the guaranteed
exposure trial `start(START_OF_DAY, Duration::seconds(f64::MAX))`, and
with further probability `I_RATIO` advance once more with `next_default`;
each `match` on `(state, Some(t))` pushes `Cmd::from((state, pid))`.
Returns the final state, the pushes, the produced finite scheduled times
(the `Some` times returned by `start` / `next_default`), and the RNG;
`none` models the `unwrap()` / `unreachable!()` faults. -/
def initOnePerson (pid : ℕ) (r : Rng) :
    Option (State × List (ℚ × Cmd) × List ℚ × Rng) :=
  match r.genBool State.ratioE with
  | (b1, r1) =>
    if b1 then
      match (State.new (95/100) (5/100)).start startOfDay fmax r1 with
      | none => none
      | some (s1, t1, r2) =>
        match r2.genBool State.ratioI with
        | (b2, r3) =>
          if b2 then
            match s1.next_default startOfDay r3 with
            | (s2, t2, r4) =>
              match pushFrom pid s2 t2 with
              | none => none
              | some ps => some (s2, ps, t1.toList ++ t2.toList, r4)
          else
            match pushFrom pid s1 t1 with
            | none => none
            | some ps => some (s1, ps, t1.toList, r3)
    else some (State.new (95/100) (5/100), [], [], r1)

/-- Source `PandemicModel::initialize` over the population list: run
`initOnePerson` for each person in order, inserting the state and
concatenating the pushes and the produced times. -/
def initPop : List ℕ → Rng →
    Option (List (ℕ × State) × List (ℚ × Cmd) × List ℚ × Rng)
  | [], r => some ([], [], [], r)
  | p :: rest, r =>
    match initOnePerson p r with
    | none => none
    | some (s, ps, tsP, r2) =>
      match initPop rest r2 with
      | none => none
      | some (popAcc, psAcc, tsAcc, r3) =>
        some ((p, s) :: popAcc, ps ++ psAcc, tsP ++ tsAcc, r3)

/-- Claim C2 counterexample: for the one-person population whose
`gen_bool(E_RATIO)` draw fails (`u = 1`), the stored initial state is
`State::new(0.95, 0.05)` - i.e. with the source's argument order
`new(p_hosp, p_death)` the stored event has `p_hosp = 0.95`, not `0.05`
as the claim states. -/
theorem claim_C2_counterexample :
    initPop [0] ⟨[1], []⟩ =
      some ([(0, State.new (95/100) (5/100))], [], [], ⟨[], []⟩)
    ∧ State.eventOf (State.new (95/100) (5/100)) =
        some ⟨SEvent.exposition, 95/100, 5/100, AnyTime.inf⟩
    ∧ ¬ ((95 : ℚ)/100 = 5/100) := by
  refine ⟨?_, rfl, by norm_num⟩
  norm_num [initPop, initOnePerson, Rng.genBool, State.ratioE]

/-- Claim C3 counterexample: with population `[0]` and draws
`u = 0, 0, 0` (exposed, then advanced to infectious, then the `p_death`
gate) and samples `z = 0, 0, 0`, initialization produces the finite
scheduled time `3600` for the intermediate `Exposed` stage via `start`,
then discards it: only the later `Infectious` time `86400` is pushed, so
not every produced finite scheduled time is pushed. -/
theorem claim_C3_counterexample :
    initPop [0] ⟨[0, 0, 0], [0, 0, 0]⟩ =
      some ([(0, State.infectious
          (⟨SEvent.recovery, 95/100, 5/100, AnyTime.fin 86400⟩, 0))],
        [(86400, Cmd.transition 0)], [3600, 86400], ⟨[], []⟩)
    ∧ (3600 : ℚ) ∈ [(3600 : ℚ), 86400]
    ∧ ∀ c ∈ [((86400 : ℚ), Cmd.transition 0)], c.1 ≠ (3600 : ℚ) := by
  refine ⟨?_, by norm_num, by norm_num⟩
  norm_num [initPop, initOnePerson, Rng.genBool, Rng.sample, State.ratioE,
    State.ratioI, State.new, State.start, State.get_time_exp,
    State.get_time_normal, State.next_default, Event.next, pushFrom,
    Cmd.fromState, startOfDay, State.T_INC, State.T_INF, State.R_0, fmax]

/-! ### Reduction lemmas for the initialization case analysis -/

theorem Event.next_exposition (ph pd : ℚ) (t : AnyTime) (now : ℚ) (r : Rng) :
    Event.next ⟨SEvent.exposition, ph, pd, t⟩ now r =
      (State.exposed (⟨SEvent.incubation, ph, pd,
        AnyTime.fin (now + (State.get_time_normal State.T_INC
          (State.T_INC / 4) r).1)⟩, now),
        some (now + (State.get_time_normal State.T_INC (State.T_INC / 4) r).1),
        (State.get_time_normal State.T_INC (State.T_INC / 4) r).2) := rfl

theorem Event.next_incubation (ph pd : ℚ) (t : AnyTime) (now : ℚ) (r : Rng) :
    Event.next ⟨SEvent.incubation, ph, pd, t⟩ now r =
      (State.infectious (⟨(if (r.genBool pd).1 then SEvent.recovery
          else SEvent.hospitalization), ph, pd,
        AnyTime.fin (now + (State.get_time_normal State.T_INF
          (State.T_INF / 4) (r.genBool pd).2).1)⟩, now),
        some (now + (State.get_time_normal State.T_INF (State.T_INF / 4)
          (r.genBool pd).2).1),
        (State.get_time_normal State.T_INF (State.T_INF / 4)
          (r.genBool pd).2).2) := rfl

theorem State.start_sane (ev : Event) (t now overlap : ℚ) (r : Rng) :
    (State.sane (ev, t)).start now overlap r =
      (if (State.get_time_exp (State.R_0 / State.T_INF) r).1 ≤ overlap
       then some (ev.next now (State.get_time_exp (State.R_0 / State.T_INF) r).2)
       else some (State.sane (ev, t), none,
         (State.get_time_exp (State.R_0 / State.T_INF) r).2)) := rfl

theorem State.next_default_sane (ev : Event) (t default : ℚ) (r : Rng) :
    (State.sane (ev, t)).next_default default r =
      (State.sane (ev, default), some default, r) := rfl

theorem State.next_default_exposed (ev : Event) (t default : ℚ) (r : Rng) :
    (State.exposed (ev, t)).next_default default r = ev.next default r := rfl

/-- Shape analysis of the guaranteed exposure trial run during
initialization: either the trial failed and the person stays `Sane` with no
scheduled time, or it passed and the person becomes `Exposed` with next
event `Incubation` scheduled at `now + d` for the Gaussian draw `d`. -/
theorem start_new_cases (ph pd now overlap : ℚ) (r : Rng) (s1 : State)
    (t1 : Option ℚ) (r2 : Rng)
    (h : (State.new ph pd).start now overlap r = some (s1, t1, r2)) :
    (s1 = State.new ph pd ∧ t1 = none)
    ∨ (∃ d : ℚ, s1 = State.exposed
        (⟨SEvent.incubation, ph, pd, AnyTime.fin (now + d)⟩, now)
        ∧ t1 = some (now + d)) := by
  rw [State.new, State.start_sane] at h
  by_cases hdf : (State.get_time_exp (State.R_0 / State.T_INF) r).1 ≤ overlap
  · rw [if_pos hdf, Event.next_exposition] at h
    simp only [Option.some.injEq, Prod.mk.injEq] at h
    right
    exact ⟨_, h.1.symm, h.2.1.symm⟩
  · rw [if_neg hdf] at h
    simp only [Option.some.injEq, Prod.mk.injEq] at h
    left
    refine ⟨?_, h.2.1.symm⟩
    rw [← h.1, State.new]

/-- Case analysis of one person's initialization: every push is tagged with
this person; a non-`Sane` final state has exactly the one `Transition` push
at its `next_event.t`; a `Sane` final state has no `Transition` push; and
the carried probabilities of the final state are `p_hosp = 0.95`,
`p_death = 0.05`. -/
theorem initOnePerson_spec (pid : ℕ) (r : Rng) (s : State)
    (ps : List (ℚ × Cmd)) (tsP : List ℚ) (r2 : Rng)
    (h : initOnePerson pid r = some (s, ps, tsP, r2)) :
    (∀ c ∈ ps, c.2 = Cmd.transition pid ∨ c.2 = Cmd.transmission pid)
    ∧ (State.isSaneVariant s = false →
        ∃ tP : ℚ, ps = [(tP, Cmd.transition pid)]
          ∧ State.get_event_time s = some (AnyTime.fin tP))
    ∧ (State.isSaneVariant s = true →
        ∀ c ∈ ps, c.2 ≠ Cmd.transition pid)
    ∧ (∃ ev : Event, State.eventOf s = some ev
        ∧ ev.p_hosp = 95/100 ∧ ev.p_death = 5/100) := by
  unfold initOnePerson at h
  split at h
  rename_i b1 r1 heq1
  split at h
  · -- b1 = true: the person runs the guaranteed exposure trial
    split at h
    · exact Option.noConfusion h
    · rename_i s1 t1 r2x heqStart
      split at h
      rename_i b2 r3 heq2
      split at h
      · -- b2 = true: advance once more with next_default
        split at h
        rename_i s2 t2 r4 heqNd
        split at h
        · exact Option.noConfusion h
        · rename_i ps2 heqPush
          simp only [Option.some.injEq, Prod.mk.injEq] at h
          obtain ⟨hs, hps, hts, hr⟩ := h
          subst hs
          subst hps
          rcases start_new_cases _ _ _ _ _ _ _ _ heqStart with
            ⟨hs1, ht1⟩ | ⟨d, hs1, ht1⟩
          · -- trial failed: next_default on a Sane state
            rw [hs1, State.new, State.next_default_sane] at heqNd
            simp only [Prod.mk.injEq] at heqNd
            obtain ⟨hs2, ht2, hr4⟩ := heqNd
            rw [← hs2, ← ht2] at heqPush
            rw [show pushFrom pid
              (State.sane (⟨SEvent.exposition, 95/100, 5/100, AnyTime.inf⟩,
                startOfDay)) (some startOfDay) =
              some [(startOfDay, Cmd.transmission pid)] from rfl] at heqPush
            obtain hps2 := Option.some.inj heqPush
            rw [← hs2, ← hps2]
            refine ⟨?_, ?_, ?_, ?_⟩
            · intro c hc
              rw [List.mem_singleton] at hc
              rw [hc]
              exact Or.inr rfl
            · intro hc
              exact Bool.noConfusion hc
            · intro _ c hc
              rw [List.mem_singleton] at hc
              rw [hc]
              exact fun hcon => Cmd.noConfusion hcon
            · exact ⟨_, rfl, rfl, rfl⟩
          · -- trial passed: next_default fires the Incubation event
            rw [hs1, State.next_default_exposed, Event.next_incubation] at heqNd
            simp only [Prod.mk.injEq] at heqNd
            obtain ⟨hs2, ht2, hr4⟩ := heqNd
            rw [← hs2, ← ht2] at heqPush
            rw [show pushFrom pid
              (State.infectious (⟨(if (r3.genBool (5/100)).1 then SEvent.recovery
                  else SEvent.hospitalization), 95/100, 5/100,
                AnyTime.fin (startOfDay + (State.get_time_normal State.T_INF
                  (State.T_INF / 4) (r3.genBool (5/100)).2).1)⟩, startOfDay))
              (some (startOfDay + (State.get_time_normal State.T_INF
                (State.T_INF / 4) (r3.genBool (5/100)).2).1)) =
              some [((startOfDay + (State.get_time_normal State.T_INF
                (State.T_INF / 4) (r3.genBool (5/100)).2).1),
                Cmd.transition pid)] from rfl] at heqPush
            obtain hps2 := Option.some.inj heqPush
            rw [← hs2, ← hps2]
            refine ⟨?_, ?_, ?_, ?_⟩
            · intro c hc
              rw [List.mem_singleton] at hc
              rw [hc]
              exact Or.inl rfl
            · intro _
              exact ⟨_, rfl, rfl⟩
            · intro hc
              exact Bool.noConfusion hc
            · exact ⟨_, rfl, rfl, rfl⟩
      · -- b2 = false: push the result of the trial itself
        split at h
        · exact Option.noConfusion h
        · rename_i ps2 heqPush
          simp only [Option.some.injEq, Prod.mk.injEq] at h
          obtain ⟨hs, hps, hts, hr⟩ := h
          subst hs
          subst hps
          rcases start_new_cases _ _ _ _ _ _ _ _ heqStart with
            ⟨hs1, ht1⟩ | ⟨d, hs1, ht1⟩
          · -- trial failed: Sane state, no time, no push
            rw [ht1] at heqPush
            rw [show pushFrom pid s1 none = some [] from rfl] at heqPush
            obtain hps2 := Option.some.inj heqPush
            rw [hs1, ← hps2]
            refine ⟨?_, ?_, ?_, ?_⟩
            · intro c hc
              exact absurd hc (List.not_mem_nil c)
            · intro hc
              exact absurd hc (by rw [State.new, State.isSaneVariant]; simp)
            · intro _ c hc
              exact absurd hc (List.not_mem_nil c)
            · exact ⟨_, by rw [State.new]; rfl, rfl, rfl⟩
          · -- trial passed: Exposed state with one Transition push
            rw [hs1, ht1] at heqPush
            rw [show pushFrom pid
              (State.exposed (⟨SEvent.incubation, 95/100, 5/100,
                AnyTime.fin (startOfDay + d)⟩, startOfDay))
              (some (startOfDay + d)) =
              some [((startOfDay + d), Cmd.transition pid)] from rfl] at heqPush
            obtain hps2 := Option.some.inj heqPush
            rw [hs1, ← hps2]
            refine ⟨?_, ?_, ?_, ?_⟩
            · intro c hc
              rw [List.mem_singleton] at hc
              rw [hc]
              exact Or.inl rfl
            · intro _
              exact ⟨_, rfl, rfl⟩
            · intro hc
              exact Bool.noConfusion hc
            · exact ⟨_, rfl, rfl, rfl⟩
  · -- b1 = false: the person stays freshly Sane with no pushes
    simp only [Option.some.injEq, Prod.mk.injEq] at h
    obtain ⟨hs, hps, hts, hr⟩ := h
    subst hs
    subst hps
    refine ⟨?_, ?_, ?_, ?_⟩
    · intro c hc
      exact absurd hc (List.not_mem_nil c)
    · intro hc
      exact absurd hc (by rw [State.new, State.isSaneVariant]; simp)
    · intro _ c hc
      exact absurd hc (List.not_mem_nil c)
    · exact ⟨_, by rw [State.new]; rfl, rfl, rfl⟩

theorem filter_transition_nil (p : ℕ) (l : List (ℚ × Cmd))
    (h : ∀ c ∈ l, c.2 ≠ Cmd.transition p) :
    l.filter (fun c => decide (c.2 = Cmd.transition p)) = [] := by
  induction l with
  | nil => rfl
  | cons c l ih =>
    rw [List.filter_cons,
      if_neg (by simpa using h c (List.mem_cons_self c l))]
    exact ih (fun q hq => h q (List.mem_cons_of_mem c hq))

theorem initPop_persons : ∀ (population : List ℕ) (r : Rng)
    (res : List (ℕ × State) × List (ℚ × Cmd) × List ℚ × Rng),
    initPop population r = some res → res.1.map Prod.fst = population := by
  intro population
  induction population with
  | nil =>
    intro r res h
    simp only [initPop, Option.some.injEq] at h
    rw [← h]
    rfl
  | cons p rest ih =>
    intro r res h
    rw [initPop] at h
    split at h
    · exact Option.noConfusion h
    · rename_i s ps tsP r2 heq1
      split at h
      · exact Option.noConfusion h
      · rename_i popAcc psAcc tsAcc r3 heq2
        obtain hres := Option.some.inj h
        rw [← hres]
        simp only [List.map_cons]
        rw [ih r2 (popAcc, psAcc, tsAcc, r3) heq2]

theorem initPop_pushes_tagged : ∀ (population : List ℕ) (r : Rng)
    (res : List (ℕ × State) × List (ℚ × Cmd) × List ℚ × Rng),
    initPop population r = some res →
    ∀ c ∈ res.2.1, ∃ q, q ∈ population ∧
      (c.2 = Cmd.transition q ∨ c.2 = Cmd.transmission q) := by
  intro population
  induction population with
  | nil =>
    intro r res h c hc
    simp only [initPop, Option.some.injEq] at h
    rw [← h] at hc
    exact absurd hc (List.not_mem_nil c)
  | cons p rest ih =>
    intro r res h c hc
    rw [initPop] at h
    split at h
    · exact Option.noConfusion h
    · rename_i s ps tsP r2 heq1
      split at h
      · exact Option.noConfusion h
      · rename_i popAcc psAcc tsAcc r3 heq2
        obtain hres := Option.some.inj h
        rw [← hres] at hc
        rcases List.mem_append.mp hc with hmem | hmem
        · exact ⟨p, List.mem_cons_self p rest,
            (initOnePerson_spec p r s ps tsP r2 heq1).1 c hmem⟩
        · obtain ⟨q, hq1, hq2⟩ :=
            ih r2 (popAcc, psAcc, tsAcc, r3) heq2 c hmem
          exact ⟨q, List.mem_cons_of_mem p hq1, hq2⟩

theorem initPop_probs : ∀ (population : List ℕ) (r : Rng)
    (res : List (ℕ × State) × List (ℚ × Cmd) × List ℚ × Rng),
    initPop population r = some res →
    ∀ e ∈ res.1, ∃ ev : Event, State.eventOf e.2 = some ev
      ∧ ev.p_hosp = 95/100 ∧ ev.p_death = 5/100 := by
  intro population
  induction population with
  | nil =>
    intro r res h e he
    simp only [initPop, Option.some.injEq] at h
    rw [← h] at he
    exact absurd he (List.not_mem_nil e)
  | cons p rest ih =>
    intro r res h e he
    rw [initPop] at h
    split at h
    · exact Option.noConfusion h
    · rename_i s ps tsP r2 heq1
      split at h
      · exact Option.noConfusion h
      · rename_i popAcc psAcc tsAcc r3 heq2
        obtain hres := Option.some.inj h
        rw [← hres] at he
        rcases List.mem_cons.mp he with he1 | he1
        · rw [he1]
          exact (initOnePerson_spec p r s ps tsP r2 heq1).2.2.2
        · exact ih r2 (popAcc, psAcc, tsAcc, r3) heq2 e he1

theorem initPop_filters : ∀ (population : List ℕ) (r : Rng)
    (res : List (ℕ × State) × List (ℚ × Cmd) × List ℚ × Rng),
    initPop population r = some res →
    population.Nodup →
    ∀ e ∈ res.1,
      (State.isSaneVariant e.2 = false →
        ∃ tP : ℚ, res.2.1.filter (fun c => decide (c.2 = Cmd.transition e.1)) =
            [(tP, Cmd.transition e.1)]
          ∧ State.get_event_time e.2 = some (AnyTime.fin tP))
      ∧ (State.isSaneVariant e.2 = true →
          res.2.1.filter (fun c => decide (c.2 = Cmd.transition e.1)) = []) := by
  intro population
  induction population with
  | nil =>
    intro r res h _ e he
    simp only [initPop, Option.some.injEq] at h
    rw [← h] at he
    exact absurd he (List.not_mem_nil e)
  | cons p rest ih =>
    intro r res h hnd e he
    rw [initPop] at h
    split at h
    · exact Option.noConfusion h
    · rename_i s ps tsP r2 heq1
      split at h
      · exact Option.noConfusion h
      · rename_i popAcc psAcc tsAcc r3 heq2
        obtain hres := Option.some.inj h
        obtain ⟨hp_rest, hnd_rest⟩ := List.nodup_cons.mp hnd
        rw [← hres] at he ⊢
        simp only
        rcases List.mem_cons.mp he with he1 | he1
        · -- the head person: its own pushes, and nothing from the rest
          have hAccNil : psAcc.filter
              (fun c => decide (c.2 = Cmd.transition e.1)) = [] := by
            refine filter_transition_nil e.1 psAcc (fun c hc => ?_)
            obtain ⟨q, hq1, hq2⟩ :=
              initPop_pushes_tagged rest r2 (popAcc, psAcc, tsAcc, r3) heq2 c hc
            have hqp : q ≠ e.1 := by
              rw [he1]
              show q ≠ p
              intro hcon
              exact hp_rest (hcon ▸ hq1)
            rcases hq2 with hq2 | hq2 <;> rw [hq2] <;>
              simp only [ne_eq, Cmd.transition.injEq] <;>
              intro hcon
            · exact hqp hcon
            · exact Cmd.noConfusion hcon
          have hspec := initOnePerson_spec p r s ps tsP r2 heq1
          rw [List.filter_append, hAccNil, List.append_nil]
          constructor
          · intro hsane
            rw [he1] at hsane ⊢
            obtain ⟨tP, htP1, htP2⟩ := hspec.2.1 hsane
            refine ⟨tP, ?_, htP2⟩
            rw [htP1, List.filter_cons, if_pos (by simp)]
            rfl
          · intro hsane
            rw [he1] at hsane ⊢
            exact filter_transition_nil p ps (hspec.2.2.1 hsane)
        · -- a person from the rest: the head's pushes never match
          have hin : e.1 ∈ rest := by
            have := initPop_persons rest r2 (popAcc, psAcc, tsAcc, r3) heq2
            rw [← this]
            exact List.mem_map_of_mem Prod.fst he1
          have hHeadNil : ps.filter
              (fun c => decide (c.2 = Cmd.transition e.1)) = [] := by
            refine filter_transition_nil e.1 ps (fun c hc => ?_)
            have htag := (initOnePerson_spec p r s ps tsP r2 heq1).1 c hc
            have hqp : p ≠ e.1 := fun hcon => hp_rest (hcon ▸ hin)
            rcases htag with htag | htag <;> rw [htag] <;>
              simp only [ne_eq, Cmd.transition.injEq] <;>
              intro hcon
            · exact hqp hcon
            · exact Cmd.noConfusion hcon
          rw [List.filter_append, hHeadNil, List.nil_append]
          exact ih r2 (popAcc, psAcc, tsAcc, r3) heq2 hnd_rest e he1

/-! ## Claim C2 -/

/-- Claim C2 (amended): every person's state created during initialization
carries `p_hosp = 0.95` and `p_death = 0.05` - the source calls
`State::new(0.95, 0.05)` whose signature is `new(p_hosp, p_death)`, the
swap of the defaults the claim states - and these fields are carried into
the state each person ends initialization in. -/
theorem claim_C2_default_probabilities (population : List ℕ) (r : Rng)
    (res : List (ℕ × State) × List (ℚ × Cmd) × List ℚ × Rng)
    (h : initPop population r = some res) :
    ∀ e ∈ res.1, ∃ ev : Event, State.eventOf e.2 = some ev
      ∧ ev.p_hosp = 95/100 ∧ ev.p_death = 5/100 :=
  initPop_probs population r res h

/-- Witness for C2 (amended): the one-person run whose exposure draw fails
keeps `State::new(0.95, 0.05)`, with `p_hosp = 95/100`, `p_death = 5/100`. -/
theorem claim_C2_witness :
    (initPop [0] ⟨[1], []⟩ =
      some ([(0, State.new (95/100) (5/100))], [], [], ⟨[], []⟩))
    ∧ (∀ e ∈ [((0 : ℕ), State.new (95/100) (5/100))],
        ∃ ev : Event, State.eventOf e.2 = some ev
          ∧ ev.p_hosp = 95/100 ∧ ev.p_death = 5/100) := by
  have hcomp : initPop [0] ⟨[1], []⟩ =
      some ([(0, State.new (95/100) (5/100))], [], [], ⟨[], []⟩) := by
    norm_num [initPop, initOnePerson, Rng.genBool, State.ratioE]
  exact ⟨hcomp, claim_C2_default_probabilities [0] ⟨[1], []⟩ _ hcomp⟩

/-! ## Claim C3 -/

/-- Claim C3 (amended): after initialization, for every person whose final
state is not `Sane` the scheduler holds exactly one `Transition` command
for them, at a time equal to their `next_event.t`, and no `Transition`
command exists for any `Sane` person. The original claim's third part is
false: the finite time produced at the `Exposed` stage of a person who is
immediately advanced to `Infectious` is discarded without being pushed
(see the counterexample). -/
theorem claim_C3_schedule (population : List ℕ) (r : Rng)
    (res : List (ℕ × State) × List (ℚ × Cmd) × List ℚ × Rng)
    (hnd : population.Nodup) (h : initPop population r = some res) :
    ∀ e ∈ res.1,
      (State.isSaneVariant e.2 = false →
        ∃ tP : ℚ, res.2.1.filter (fun c => decide (c.2 = Cmd.transition e.1)) =
            [(tP, Cmd.transition e.1)]
          ∧ State.get_event_time e.2 = some (AnyTime.fin tP))
      ∧ (State.isSaneVariant e.2 = true →
          res.2.1.filter (fun c => decide (c.2 = Cmd.transition e.1)) = []) :=
  initPop_filters population r res h hnd

/-- Witness for C3 (amended), at the concrete run of the counterexample:
the single person ends `Infectious` with `next_event.t = 86400`, and the
scheduler holds exactly `[(86400, Transition 0)]` for them. -/
theorem claim_C3_witness :
    ([0] : List ℕ).Nodup
    ∧ ∀ e ∈ [((0 : ℕ), State.infectious
        (⟨SEvent.recovery, 95/100, 5/100, AnyTime.fin 86400⟩, 0))],
      (State.isSaneVariant e.2 = false →
        ∃ tP : ℚ, ([((86400 : ℚ), Cmd.transition 0)]).filter
            (fun c => decide (c.2 = Cmd.transition e.1)) =
            [(tP, Cmd.transition e.1)]
          ∧ State.get_event_time e.2 = some (AnyTime.fin tP))
      ∧ (State.isSaneVariant e.2 = true →
          ([((86400 : ℚ), Cmd.transition 0)]).filter
            (fun c => decide (c.2 = Cmd.transition e.1)) = []) := by
  have hcomp : initPop [0] ⟨[0, 0, 0], [0, 0, 0]⟩ =
      some ([(0, State.infectious
          (⟨SEvent.recovery, 95/100, 5/100, AnyTime.fin 86400⟩, 0))],
        [(86400, Cmd.transition 0)], [3600, 86400], ⟨[], []⟩) := by
    norm_num [initPop, initOnePerson, Rng.genBool, Rng.sample, State.ratioE,
      State.ratioI, State.new, State.start, State.get_time_exp,
      State.get_time_normal, State.next_default, Event.next, pushFrom,
      Cmd.fromState, startOfDay, State.T_INC, State.T_INF, State.R_0, fmax]
  exact ⟨by simp,
    claim_C3_schedule [0] ⟨[0, 0, 0], [0, 0, 0]⟩ _ (by simp) hcomp⟩
